import Mathlib

/-!
Shallow embedding of `perfrunner/helpers/config_files.py` and
`spring/cbgen4.py`.

Documents parsed from YAML/JSON files are modelled by the inductive type
`Yaml` (Python dicts become ordered association lists, Python lists become
`List Yaml`).  Fallible Python code (subscript lookups, `pop`, `.update` on
non-dicts, `int()` parsing, ...) is modelled with `Except PyErr`.
-/

namespace ConfigFiles

/-- Python exceptions that the modelled code can raise. -/
inductive PyErr where
  | keyError (k : String)
  | typeError
  | attributeError
  | indexError
  | valueError
  deriving DecidableEq, Repr

/-- Parsed YAML/JSON value: scalars, arrays and (insertion-ordered) mappings. -/
inductive Yaml where
  | s (v : String)
  | i (v : Int)
  | b (v : Bool)
  | null
  | arr (xs : List Yaml)
  | obj (kvs : List (String × Yaml))
  deriving Repr

/-- The empty mapping, `{}`. -/
def Yaml.empty : Yaml := .obj []

/-- Lookup of a key in an ordered association list (Python `dict.get`). -/
def lookupKV (k : String) : List (String × Yaml) → Option Yaml
  | [] => none
  | (k', v) :: rest => if k' = k then some v else lookupKV k rest

/-- `d[k] = v` on an ordered association list: update in place when the key
exists (keeping its position), append otherwise — matching Python dict
insertion-order semantics. -/
def setEntry (k : String) (v : Yaml) : List (String × Yaml) → List (String × Yaml)
  | [] => [(k, v)]
  | (k', v') :: rest => if k' = k then (k, v) :: rest else (k', v') :: setEntry k v rest

/-- Removal of a key from an association list (Python `dict.pop`). -/
def eraseKey (k : String) (kvs : List (String × Yaml)) : List (String × Yaml) :=
  kvs.filter (fun kv => kv.1 ≠ k)

/-- A step of a field path: a mapping key or an array index. -/
inductive PStep where
  | key (k : String)
  | idx (n : Nat)
  deriving DecidableEq, Repr

/-- A nested field location, e.g. `spec.servers[0].size`. -/
abbrev Path := List PStep

/-- Pure read of a nested field. -/
def getPath : Path → Yaml → Option Yaml
  | [], y => some y
  | .key k :: p, .obj kvs => (lookupKV k kvs).bind (getPath p)
  | .idx n :: p, .arr xs => xs[n]?.bind (getPath p)
  | _ :: _, _ => none

/-- `d[k]` on a document: `KeyError` when the key is absent, `TypeError` when
the subscripted value is not a mapping. -/
def getKey (k : String) : Yaml → Except PyErr Yaml
  | .obj kvs =>
    match lookupKV k kvs with
    | some v => .ok v
    | none => .error (.keyError k)
  | _ => .error .typeError

/-- `d[k] = v` on a document. -/
def setKeyE (k : String) (v : Yaml) : Yaml → Except PyErr Yaml
  | .obj kvs => .ok (.obj (setEntry k v kvs))
  | _ => .error .typeError

/-- `d.update(pairs)`: sequentially assign each pair; `AttributeError` when the
receiver is not a mapping. -/
def dictUpdate (ps : List (String × Yaml)) : Yaml → Except PyErr Yaml
  | .obj kvs => .ok (.obj (ps.foldl (fun acc kv => setEntry kv.1 kv.2 acc) kvs))
  | _ => .error .attributeError

/-- `d.pop(k)` (no default): `KeyError` when the key is absent,
`AttributeError` when the receiver is not a mapping. -/
def popKey (k : String) : Yaml → Except PyErr Yaml
  | .obj kvs =>
    match lookupKV k kvs with
    | some _ => .ok (.obj (eraseKey k kvs))
    | none => .error (.keyError k)
  | _ => .error .attributeError

/-- Navigate to a nested location following Python subscript semantics and
apply a mutation there; the mutated value is written back along the chain,
modelling that Python subscripts return aliases mutated in place. -/
def mutAt : Path → (Yaml → Except PyErr Yaml) → Yaml → Except PyErr Yaml
  | [], f, y => f y
  | .key k :: q, f, y =>
    match y with
    | .obj kvs =>
      match lookupKV k kvs with
      | some v => (mutAt q f v).map (fun v' => .obj (setEntry k v' kvs))
      | none => .error (.keyError k)
    | _ => .error .typeError
  | .idx n :: q, f, y =>
    match y with
    | .arr xs =>
      match xs[n]? with
      | some v => (mutAt q f v).map (fun v' => .arr (xs.set n v'))
      | none => .error .indexError
    | _ => .error .typeError

/-- Left-to-right effectful map over a list, stopping at the first error
(the semantics of a Python `for` loop whose body may raise). -/
def exMapM (g : Yaml → Except PyErr Yaml) : List Yaml → Except PyErr (List Yaml)
  | [] => .ok []
  | x :: xs =>
    match g x with
    | .error e => .error e
    | .ok y => (exMapM g xs).map (fun ys => y :: ys)

/-- Two paths are disjoint when neither is a prefix of the other; a mutation
confined to one leaves every value at a disjoint path unchanged. -/
def pdisj : Path → Path → Bool
  | [], _ => false
  | _ :: _, [] => false
  | a :: p, b :: q => a != b || pdisj p q

/-! ### Basic lemmas about the association-list and path primitives -/

theorem lookupKV_setEntry_self (k : String) (v : Yaml) (kvs : List (String × Yaml)) :
    lookupKV k (setEntry k v kvs) = some v := by
  induction kvs with
  | nil => simp [setEntry, lookupKV]
  | cons kv rest ih =>
    by_cases h : kv.1 = k
    · simp [setEntry, h, lookupKV]
    · simpa [setEntry, h, lookupKV] using ih

theorem lookupKV_setEntry_ne (k k' : String) (v : Yaml) (kvs : List (String × Yaml))
    (h : k' ≠ k) : lookupKV k' (setEntry k v kvs) = lookupKV k' kvs := by
  induction kvs with
  | nil => simp [setEntry, lookupKV, Ne.symm h]
  | cons kv rest ih =>
    obtain ⟨k1, v1⟩ := kv
    by_cases hk : k1 = k
    · subst hk
      simp [setEntry, lookupKV, Ne.symm h]
    · simp [setEntry, hk, lookupKV, ih]

theorem lookupKV_eraseKey_self (k : String) (kvs : List (String × Yaml)) :
    lookupKV k (eraseKey k kvs) = none := by
  induction kvs with
  | nil => simp [eraseKey, lookupKV]
  | cons kv rest ih =>
    by_cases h : kv.1 = k
    · simpa [eraseKey, h, List.filter] using ih
    · simpa [eraseKey, h, List.filter, lookupKV] using ih

theorem lookupKV_eraseKey_ne (k k' : String) (kvs : List (String × Yaml)) (h : k' ≠ k) :
    lookupKV k' (eraseKey k kvs) = lookupKV k' kvs := by
  induction kvs with
  | nil => simp [eraseKey, lookupKV]
  | cons kv rest ih =>
    obtain ⟨k1, v1⟩ := kv
    by_cases hk : k1 = k
    · subst hk
      simp only [eraseKey, List.filter_cons, ne_eq, decide_not] at ih ⊢
      simp [lookupKV, Ne.symm h, ih]
    · simp only [eraseKey, List.filter_cons, ne_eq, decide_not] at ih ⊢
      simp [lookupKV, hk, ih]

theorem getPath_append (q r : Path) (y : Yaml) :
    getPath (q ++ r) y = (getPath q y).bind (getPath r) := by
  induction q generalizing y with
  | nil => simp [getPath]
  | cons st q ih =>
    cases st with
    | key k =>
      cases y with
      | obj kvs =>
        simp only [List.cons_append, getPath]
        cases lookupKV k kvs with
        | none => simp
        | some v => simp [ih]
      | s v => simp [getPath]
      | i v => simp [getPath]
      | b v => simp [getPath]
      | null => simp [getPath]
      | arr xs => simp [getPath]
    | idx n =>
      cases y with
      | arr xs =>
        simp only [List.cons_append, getPath]
        cases xs[n]? with
        | none => simp
        | some v => simp [ih]
      | s v => simp [getPath]
      | i v => simp [getPath]
      | b v => simp [getPath]
      | null => simp [getPath]
      | obj kvs => simp [getPath]

/-- Full characterization of a successful nested mutation: the navigated value
exists, the inner mutation succeeds on it, values at disjoint paths are
unchanged, and paths through the mutation point read from the new (resp. old)
inner value. -/
theorem mutAt_ok (q : Path) (f : Yaml → Except PyErr Yaml) (y d : Yaml)
    (h : mutAt q f y = .ok d) :
    ∃ v w, getPath q y = some v ∧ f v = .ok w ∧
      (∀ p, pdisj p q = true → getPath p d = getPath p y) ∧
      (∀ r, getPath (q ++ r) d = getPath r w) ∧
      (∀ r, getPath (q ++ r) y = getPath r v) := by
  induction q generalizing y d with
  | nil =>
    refine ⟨y, d, rfl, h, ?_, ?_, ?_⟩
    · intro p hp
      cases p <;> simp [pdisj] at hp
    · intro r; simp
    · intro r; simp
  | cons st q ih =>
    cases st with
    | key k =>
      cases y with
      | obj kvs =>
        cases hv : lookupKV k kvs with
        | none => simp [mutAt, hv] at h
        | some v0 =>
          cases hm : mutAt q f v0 with
          | error e => simp [mutAt, hv, hm, Except.map] at h
          | ok v0' =>
            simp only [mutAt, hv, hm, Except.map, Except.ok.injEq] at h
            obtain ⟨v, w, hget, hf, hfr, hdw, hyv⟩ := ih v0 v0' hm
            refine ⟨v, w, ?_, hf, ?_, ?_, ?_⟩
            · simp [getPath, hv, hget]
            · intro p hp
              cases p with
              | nil => simp [pdisj] at hp
              | cons a p' =>
                by_cases ha : a = .key k
                · subst ha
                  have hp' : pdisj p' q = true := by simpa [pdisj] using hp
                  subst h
                  simp [getPath, lookupKV_setEntry_self, hv, hfr p' hp']
                · subst h
                  cases a with
                  | key k' =>
                    have hne : k' ≠ k := fun hh => ha (by rw [hh])
                    simp [getPath, lookupKV_setEntry_ne _ _ _ _ hne]
                  | idx n => simp [getPath]
            · intro r
              subst h
              simp [getPath, lookupKV_setEntry_self, hdw r]
            · intro r
              simp [getPath, hv, hyv r]
      | s v => simp [mutAt] at h
      | i v => simp [mutAt] at h
      | b v => simp [mutAt] at h
      | null => simp [mutAt] at h
      | arr xs => simp [mutAt] at h
    | idx n =>
      cases y with
      | arr xs =>
        cases hv : xs[n]? with
        | none => simp [mutAt, hv] at h
        | some v0 =>
          cases hm : mutAt q f v0 with
          | error e => simp [mutAt, hv, hm, Except.map] at h
          | ok v0' =>
            simp only [mutAt, hv, hm, Except.map, Except.ok.injEq] at h
            obtain ⟨v, w, hget, hf, hfr, hdw, hyv⟩ := ih v0 v0' hm
            obtain ⟨hlt, -⟩ := List.getElem?_eq_some.mp hv
            refine ⟨v, w, ?_, hf, ?_, ?_, ?_⟩
            · simp [getPath, hv, hget]
            · intro p hp
              cases p with
              | nil => simp [pdisj] at hp
              | cons a p' =>
                by_cases ha : a = .idx n
                · subst ha
                  have hp' : pdisj p' q = true := by simpa [pdisj] using hp
                  subst h
                  simp [getPath, List.getElem?_set_eq_of_lt _ hlt, hv, hfr p' hp']
                · subst h
                  cases a with
                  | idx m =>
                    have hne : m ≠ n := fun hh => ha (by rw [hh])
                    simp [getPath, List.getElem?_set_ne (fun hh => hne hh.symm)]
                  | key k' => simp [getPath]
            · intro r
              subst h
              simp [getPath, List.getElem?_set_eq_of_lt _ hlt, hdw r]
            · intro r
              simp [getPath, hv, hyv r]
      | s v => simp [mutAt] at h
      | i v => simp [mutAt] at h
      | b v => simp [mutAt] at h
      | null => simp [mutAt] at h
      | obj kvs => simp [mutAt] at h

/-- Successful effectful map: same length, and pointwise the body succeeded. -/
theorem exMapM_ok (g : Yaml → Except PyErr Yaml) (xs ys : List Yaml)
    (h : exMapM g xs = .ok ys) :
    ys.length = xs.length ∧
      ∀ (i : Nat) (x : Yaml), xs[i]? = some x → ∃ yv, ys[i]? = some yv ∧ g x = .ok yv := by
  induction xs generalizing ys with
  | nil =>
    simp [exMapM] at h
    subst h
    exact ⟨rfl, by intro i x hx; simp at hx⟩
  | cons x xs ih =>
    cases hg : g x with
    | error e => simp [exMapM, hg] at h
    | ok y0 =>
      cases hrest : exMapM g xs with
      | error e => simp [exMapM, hg, hrest, Except.map] at h
      | ok ys0 =>
        simp only [exMapM, hg, hrest, Except.map, Except.ok.injEq] at h
        subst h
        obtain ⟨hlen, hpt⟩ := ih ys0 hrest
        refine ⟨by simp [hlen], ?_⟩
        intro i xv hx
        cases i with
        | zero =>
          simp at hx
          subst hx
          exact ⟨y0, by simp, hg⟩
        | succ j =>
          simp at hx
          obtain ⟨yv, hy, hgy⟩ := hpt j xv (by simpa using hx)
          exact ⟨yv, by simpa using hy, hgy⟩

/-! ### Python value equality (`==`) for document values

Scalars compare by value; lists compare pointwise; dicts compare as maps
(same number of entries, and every key of the left maps to an equal value
in the right), ignoring insertion order. -/

mutual

def pyEq : Yaml → Yaml → Bool
  | .s a, .s b => a == b
  | .i a, .i b => a == b
  | .b a, .b b => a == b
  | .null, .null => true
  | .arr xs, .arr ys => pyEqList xs ys
  | .obj a, .obj b => a.length == b.length && pyEqObj a b
  | _, _ => false

def pyEqList : List Yaml → List Yaml → Bool
  | [], [] => true
  | x :: xs, y :: ys => pyEq x y && pyEqList xs ys
  | _, _ => false

def pyEqObj : List (String × Yaml) → List (String × Yaml) → Bool
  | [], _ => true
  | kv :: rest, b =>
    (match lookupKV kv.1 b with
     | some w => pyEq kv.2 w
     | none => false) && pyEqObj rest b

end

/-! ### Configuration inputs (`perfrunner.settings` objects used by the setters) -/

/-- `int(str)`: parse or raise `ValueError`. -/
def pyInt (st : String) : Except PyErr Int :=
  match st.toInt? with
  | some n => .ok n
  | none => .error .valueError

/-- Generic association-list lookup (Python `dict.get` for non-document dicts). -/
def alookup {α : Type} (k : String) : List (String × α) → Option α
  | [] => none
  | (k', v) :: rest => if k' = k then some v else alookup k rest

/-- Generic association-list assignment (update in place or append). -/
def aset {α : Type} (k : String) (v : α) : List (String × α) → List (String × α)
  | [] => [(k, v)]
  | (k', v') :: rest => if k' = k then (k, v) :: rest else (k', v') :: aset k v rest

/-- The fields of `test_config.cluster` read by the cluster-file setters. -/
structure ClusterSettings where
  mem_quota : Nat
  index_mem_quota : Nat
  fts_index_mem_quota : Nat
  analytics_mem_quota : Nat
  eventing_mem_quota : Nat
  online_cores : Nat
  kernel_mem_limit : Nat
  kernel_mem_limit_services : List String

/-- The fields of `test_config.bucket` read by `set_auto_failover`. -/
structure BucketCfg where
  autofailover_enabled : Bool
  failover_timeouts : List Nat
  disk_failover_timeout : Nat

/-- The fields of `test_config.compaction` read by `configure_auto_compaction`. -/
structure CompactionSettings where
  db_percentage : String
  view_percentage : String
  parallel : Bool

/-- The slice of `TestConfig` consumed by `CAOCouchbaseClusterFile`. -/
structure TestConfig where
  cluster : ClusterSettings
  bucket : BucketCfg
  compaction : CompactionSettings
  gsi_settings : List (String × String)
  sever_group_definition : String → List (String × String)

/-- The slice of `ClusterSpec` consumed by `CAOCouchbaseClusterFile`:
`roles` (server → role string), `istio_enabled("k8s_cluster_1")` and
`servers_by_role("index")`. -/
structure ClusterSpec where
  roles : List (String × String)
  istio_enabled : Bool
  index_nodes : List String

/-- Instance data of a `CAOCouchbaseClusterFile`. -/
structure Ctx where
  test_config : TestConfig
  cluster_spec : ClusterSpec
  version : Option (Nat × Nat × Nat)

namespace CAOCouchbaseClusterFile

/-- `set_server_spec`: assign `spec.image` and `spec.servers[0].size`. -/
def set_server_spec (server_tag : String) (server_count : Int) (doc : Yaml) :
    Except PyErr Yaml :=
  match mutAt [.key "spec"] (setKeyE "image" (.s server_tag)) doc with
  | .error e => .error e
  | .ok d1 => mutAt [.key "spec", .key "servers", .idx 0] (setKeyE "size" (.i server_count)) d1

/-- `set_backup`: with a truthy tag assign `spec.backup.image`; with a falsy
tag `self.config.get("spec", {}).pop("backup")`. -/
def set_backup (backup_tag : String) (doc : Yaml) : Except PyErr Yaml :=
  if backup_tag ≠ "" then
    mutAt [.key "spec", .key "backup"] (setKeyE "image" (.s backup_tag)) doc
  else
    match doc with
    | .obj kvs =>
      match lookupKV "spec" kvs with
      | some v => (popKey "backup" v).map (fun v' => .obj (setEntry "spec" v' kvs))
      | none => (popKey "backup" Yaml.empty).map (fun _ => doc)
    | _ => .error .attributeError

/-- `set_exporter`: with a truthy tag update `spec.monitoring.prometheus`;
with a falsy tag `self.config.get("spec", {}).pop("monitoring")`. -/
def set_exporter (exporter_tag : String) (refresh_rate : Int) (doc : Yaml) :
    Except PyErr Yaml :=
  if exporter_tag ≠ "" then
    mutAt [.key "spec", .key "monitoring", .key "prometheus"]
      (dictUpdate [("image", .s exporter_tag), ("refreshRate", .i refresh_rate)]) doc
  else
    match doc with
    | .obj kvs =>
      match lookupKV "spec" kvs with
      | some v => (popKey "monitoring" v).map (fun v' => .obj (setEntry "spec" v' kvs))
      | none => (popKey "monitoring" Yaml.empty).map (fun _ => doc)
    | _ => .error .attributeError

/-- `set_memory_quota`: always update the data and index quotas on
`spec.cluster`; update search/analytics/eventing quotas only when the
corresponding configured value is truthy (non-zero). -/
def set_memory_quota (tc : TestConfig) (doc : Yaml) : Except PyErr Yaml :=
  match mutAt [.key "spec", .key "cluster"] (dictUpdate
    [("dataServiceMemoryQuota", .s (toString tc.cluster.mem_quota ++ "Mi")),
     ("indexServiceMemoryQuota", .s (toString tc.cluster.index_mem_quota ++ "Mi"))]) doc with
  | .error e => .error e
  | .ok d1 =>
  match (if tc.cluster.fts_index_mem_quota ≠ 0 then
      mutAt [.key "spec", .key "cluster"] (dictUpdate
        [("searchServiceMemoryQuota",
          .s (toString tc.cluster.fts_index_mem_quota ++ "Mi"))]) d1
    else .ok d1) with
  | .error e => .error e
  | .ok d2 =>
  match (if tc.cluster.analytics_mem_quota ≠ 0 then
      mutAt [.key "spec", .key "cluster"] (dictUpdate
        [("analyticsServiceMemoryQuota",
          .s (toString tc.cluster.analytics_mem_quota ++ "Mi"))]) d2
    else .ok d2) with
  | .error e => .error e
  | .ok d3 =>
  if tc.cluster.eventing_mem_quota ≠ 0 then
    mutAt [.key "spec", .key "cluster"] (dictUpdate
      [("eventingServiceMemoryQuota",
        .s (toString tc.cluster.eventing_mem_quota ++ "Mi"))]) d3
  else .ok d3

/-- `set_index_settings`: when there are index nodes and GSI settings, copy
`indexer.settings.storage_mode` into `spec.cluster.indexStorageSetting`. -/
def set_index_settings (cs : ClusterSpec) (tc : TestConfig) (doc : Yaml) :
    Except PyErr Yaml :=
  if ¬cs.index_nodes.isEmpty ∧ ¬tc.gsi_settings.isEmpty then
    mutAt [.key "spec", .key "cluster"] (fun y =>
      match alookup "indexer.settings.storage_mode" tc.gsi_settings with
      | some v => dictUpdate [("indexStorageSetting", .s v)] y
      | none => .error (.keyError "indexer.settings.storage_mode")) doc
  else .ok doc

/-- `kv`→`data`, `n1ql`→`query` substring substitution on a role string. -/
def canonRole (r : String) : String := (r.replace "kv" "data").replace "n1ql" "query"

/-- The ordered role-count dict built by the first loop of `set_services`. -/
def server_types (roles : List (String × String)) : List (String × Nat) :=
  roles.foldl (fun acc kv =>
    let role := canonRole kv.2
    aset role ((alookup role acc).getD 0 + 1) acc) []

/-- The node-selector dict comprehension of `set_services`. -/
def node_selector_of (server_role : String) : List (String × Yaml) :=
  (server_role.splitOn ",").foldl (fun acc service =>
    setEntry (((service.replace "data" "kv").replace "query" "n1ql") ++ "_enabled")
      (.s "true") acc) []

/-- One iteration of the `set_services` loop: the server definition and the
volume-claim definition for one service group. -/
def server_group_defs (tc : TestConfig) (istioVal : String) (entry : String × Nat) :
    Except PyErr (Yaml × Yaml) :=
  let server_role := entry.1
  let node_selector := setEntry "NodeRoles" (.s "couchbase1") (node_selector_of server_role)
  let podSpec : Yaml := .obj
    [("imagePullSecrets", .arr [.obj [("name", .s "regcred")]]),
     ("nodeSelector", .obj node_selector)]
  let sg_name := server_role.replace "," "-"
  let sg_def := tc.sever_group_definition sg_name
  match (match alookup "nodes" sg_def with
         | some st => pyInt st
         | none => .ok (Int.ofNat entry.2)) with
  | .error e => .error e
  | .ok sg_nodes =>
  let volume_size :=
    (((alookup "volume_size" sg_def).getD "1000GB").replace "GB" "Gi").replace "MB" "Mi"
  let pod_def : Yaml := .obj
    [("spec", podSpec),
     ("metadata", .obj [("annotations", .obj [("sidecar.istio.io/inject", .s istioVal)])])]
  let server_def : Yaml := .obj
    [("name", .s sg_name),
     ("services", .arr ((server_role.splitOn ",").map Yaml.s)),
     ("pod", pod_def),
     ("size", .i sg_nodes),
     ("volumeMounts", .obj [("default", .s sg_name)])]
  let volume_claim_def : Yaml := .obj
    [("metadata", .obj [("name", .s sg_name)]),
     ("spec", .obj [("resources", .obj [("requests", .obj [("storage", .s volume_size)])])])]
  .ok (server_def, volume_claim_def)

/-- Left-to-right effectful map of the `set_services` loop over role counts. -/
def exPairMapM (g : String × Nat → Except PyErr (Yaml × Yaml)) :
    List (String × Nat) → Except PyErr (List (Yaml × Yaml))
  | [] => .ok []
  | x :: xs =>
    match g x with
    | .error e => .error e
    | .ok y => (exPairMapM g xs).map (fun ys => y :: ys)

/-- `set_services`: build per-service-group server and volume-claim
definitions and assign them wholesale to `spec.servers` and
`spec.volumeClaimTemplates`. -/
def set_services (cs : ClusterSpec) (tc : TestConfig) (doc : Yaml) : Except PyErr Yaml :=
  let types := server_types cs.roles
  let istioVal := if cs.istio_enabled then "true" else "false"
  match exPairMapM (server_group_defs tc istioVal) types with
  | .error e => .error e
  | .ok defs =>
  match mutAt [.key "spec"] (setKeyE "servers" (.arr (defs.map Prod.fst))) doc with
  | .error e => .error e
  | .ok d1 => mutAt [.key "spec"] (setKeyE "volumeClaimTemplates" (.arr (defs.map Prod.snd))) d1

/-- `str(b).lower()` for a Python bool. -/
def pyStrBool (p : Bool) : String := if p then "True" else "False"

/-- `configure_auto_compaction`: parse the percentages, then update
`spec.cluster.autoCompaction`.  `bool(str(parallel).lower())` is truthiness of
a non-empty string, hence always `True`. -/
def configure_auto_compaction (tc : TestConfig) (doc : Yaml) : Except PyErr Yaml :=
  match pyInt tc.compaction.db_percentage with
  | .error e => .error e
  | .ok db_percent =>
  match pyInt tc.compaction.view_percentage with
  | .error e => .error e
  | .ok views_percent =>
  mutAt [.key "spec", .key "cluster"] (dictUpdate
    [("autoCompaction", .obj
      [("databaseFragmentationThreshold", .obj [("percent", .i db_percent)]),
       ("viewFragmentationThreshold", .obj [("percent", .i views_percent)]),
       ("parallelCompaction", .b (decide ((pyStrBool tc.compaction.parallel).toLower ≠ "")))])])
    doc

/-- `set_auto_failover`: update the five autofailover fields on
`spec.cluster`; `failover_timeouts[-1]` raises on an empty list. -/
def set_auto_failover (tc : TestConfig) (doc : Yaml) : Except PyErr Yaml :=
  mutAt [.key "spec", .key "cluster"] (fun y =>
    match tc.bucket.failover_timeouts.getLast? with
    | none => .error .indexError
    | some failover_timeout =>
    let enabled := tc.bucket.autofailover_enabled
    dictUpdate
      [("autoFailoverMaxCount", .i 1),
       ("autoFailoverServerGroup", .b enabled),
       ("autoFailoverOnDataDiskIssues", .b enabled),
       ("autoFailoverOnDataDiskIssuesTimePeriod",
        .s (toString tc.bucket.disk_failover_timeout ++ "s")),
       ("autoFailoverTimeout", .s (toString failover_timeout ++ "s"))] y) doc

/-- Iterate a loop body over the list value of `spec.servers` (the `for
server_group in server_groups` pattern, modelled for a list-valued field). -/
def mapServers (g : Yaml → Except PyErr Yaml) : Yaml → Except PyErr Yaml
  | .arr xs => (exMapM g xs).map .arr
  | _ => .error .typeError

/-- `set_cpu_settings`: update `resources.limits.cpu` on every entry of
`spec.servers`. -/
def set_cpu_settings (tc : TestConfig) (doc : Yaml) : Except PyErr Yaml :=
  let online_vcpus : Int := tc.cluster.online_cores * 2
  mutAt [.key "spec", .key "servers"] (mapServers (dictUpdate
    [("resources", .obj [("limits", .obj [("cpu", .i online_vcpus)])])])) doc

/-- The perfrunner→CAO service-name translation of `set_memory_settings`. -/
def canonService (service : String) : String :=
  if service = "kv" then "data"
  else if service = "n1ql" then "query"
  else if service = "fts" then "search"
  else if service = "cbas" then "analytics"
  else service

/-- Loop body of `set_memory_settings` for one server group. -/
def mem_update_group (tune : List String) (kernel_memory : Nat) (g : Yaml) :
    Except PyErr Yaml :=
  match getKey "services" g with
  | .error e => .error e
  | .ok (.arr names) =>
    if names.any (fun y => tune.any (fun t => pyEq y (.s t))) ∧ kernel_memory ≠ 0 then
      dictUpdate
        [("resources", .obj [("limits",
          .obj [("memory", .s (toString kernel_memory ++ "Mi"))])])] g
    else .ok g
  | .ok _ => .error .typeError

/-- `set_memory_settings`: no-op when no kernel memory limit is configured;
otherwise update `resources.limits.memory` on the server groups whose
services intersect the configured tuning set. -/
def set_memory_settings (tc : TestConfig) (doc : Yaml) : Except PyErr Yaml :=
  if tc.cluster.kernel_mem_limit = 0 then .ok doc
  else
    let tune := tc.cluster.kernel_mem_limit_services.map canonService
    mutAt [.key "spec", .key "servers"]
      (mapServers (mem_update_group tune tc.cluster.kernel_mem_limit)) doc

/-- Loop body of `configure_autoscaling` for one entry of `spec.servers`:
compare `server_group["name"]` with the loop variable `server_group` itself
and update `autoscaleEnabled` when they compare equal. -/
def autoscale_body (server_group : Yaml) : Except PyErr Yaml :=
  match getKey "name" server_group with
  | .error e => .error e
  | .ok name =>
    if pyEq name server_group then
      dictUpdate [("autoscaleEnabled", .b true)] server_group
    else .ok server_group

/-- `configure_autoscaling`: iterate the entries of `spec.servers` with
`autoscale_body` (the parameter `sever_group` is never read). -/
def configure_autoscaling ( sever_group : String) (doc : Yaml) : Except PyErr Yaml :=
  mutAt [.key "spec", .key "servers"] (mapServers autoscale_body) doc

/-- Python `f"{t}"` for a 3-tuple of ints. -/
def tupleStr (v : Nat × Nat × Nat) : String :=
  "(" ++ toString v.1 ++ ", " ++ toString v.2.1 ++ ", " ++ toString v.2.2 ++ ")"

/-- Lexicographic `<=` on version tuples (Python tuple comparison). -/
def vle (v1 v2 : Nat × Nat × Nat) : Bool :=
  decide (v1.1 < v2.1 ∨ (v1.1 = v2.1 ∧
    (v1.2.1 < v2.2.1 ∨ (v1.2.1 = v2.2.1 ∧ v1.2.2 ≤ v2.2.2))))

/-- Result of calling a `supported_for`-gated method: the wrapped method's
return value when the version is in bounds, otherwise `none` plus a warning. -/
structure Gated (α : Type) where
  ret : Option α
  warnings : List String

/-- The `supported_for` decorator: compare the instance version (defaulting to
`(0, 0, 0)`) against the inclusive bounds; in bounds, delegate and return the
method's result; out of bounds, log a warning naming the feature and the
violated bound and return `None`. -/
def supported_for {α : Type} (since upto : Option (Nat × Nat × Nat)) (feature : String)
    (version : Option (Nat × Nat × Nat)) (method : Unit → α) : Gated α :=
  let v := version.getD (0, 0, 0)
  if (match since with | none => true | some s => vle s v) &&
     (match upto with | none => true | some u => vle v u) then
    { ret := some (method ()), warnings := [] }
  else
    { ret := none,
      warnings := [String.intercalate " "
        ["Ignoring setting " ++ feature ++ ". Feature only supported",
         match since with | some s => "from version " ++ tupleStr s | none => "",
         match upto with | some u => "upto version " ++ tupleStr u | none => ""]] }

/-- `set_cng_version`, gated with `since=(2, 6, 0)`: update
`spec.networking.cloudNativeGateway.image`. -/
def set_cng_version (version : Option (Nat × Nat × Nat)) (cng_tag : String) (doc : Yaml) :
    Gated (Except PyErr Yaml) :=
  supported_for (some (2, 6, 0)) none "CNG" version (fun _ =>
    mutAt [.key "spec", .key "networking"]
      (dictUpdate [("cloudNativeGateway", .obj [("image", .s cng_tag)])]) doc)

end CAOCouchbaseClusterFile

/-! ### Derived lemmas used by the claim theorems -/

theorem lookup_foldSet_not_mem (ps : List (String × Yaml)) (k : String)
    (kvs : List (String × Yaml)) (hk : ∀ kv ∈ ps, kv.1 ≠ k) :
    lookupKV k (ps.foldl (fun acc kv => setEntry kv.1 kv.2 acc) kvs) = lookupKV k kvs := by
  induction ps generalizing kvs with
  | nil => simp
  | cons kv ps ih =>
    simp only [List.foldl_cons]
    rw [ih _ (fun kv' h' => hk kv' (List.mem_cons_of_mem _ h'))]
    exact lookupKV_setEntry_ne _ _ _ _ (Ne.symm (hk kv (List.mem_cons_self _ _)))

/-- Value of a field just written by `mutAt q (dictUpdate ps)`: if folding `ps`
over any dict makes key `k` map to `v`, then the document reads `v` at
`q ++ [k]`. -/
theorem mutUpd_get_last (q : Path) (ps : List (String × Yaml)) (k : String) (v : Yaml)
    (y d : Yaml) (h : mutAt q (dictUpdate ps) y = .ok d)
    (hps : ∀ kvs, lookupKV k (ps.foldl (fun acc kv => setEntry kv.1 kv.2 acc) kvs) = some v) :
    getPath (q ++ [.key k]) d = some v := by
  obtain ⟨v0, w, hget, hf, hfr, hdw, hyv⟩ := mutAt_ok q _ y d h
  cases v0 with
  | obj kvs =>
    simp only [dictUpdate, Except.ok.injEq] at hf
    rw [hdw [.key k], ← hf]
    simp [getPath, hps kvs]
  | s a => simp [dictUpdate] at hf
  | i a => simp [dictUpdate] at hf
  | b a => simp [dictUpdate] at hf
  | null => simp [dictUpdate] at hf
  | arr a => simp [dictUpdate] at hf

/-- A `mutAt q (dictUpdate ps)` step leaves any key it does not write
unchanged (read at `q ++ [k]`). -/
theorem mutUpd_get_preserved (q : Path) (ps : List (String × Yaml)) (k : String)
    (y d : Yaml) (h : mutAt q (dictUpdate ps) y = .ok d) (hk : ∀ kv ∈ ps, kv.1 ≠ k) :
    getPath (q ++ [.key k]) d = getPath (q ++ [.key k]) y := by
  obtain ⟨v0, w, hget, hf, hfr, hdw, hyv⟩ := mutAt_ok q _ y d h
  cases v0 with
  | obj kvs =>
    simp only [dictUpdate, Except.ok.injEq] at hf
    rw [hdw [.key k], hyv [.key k], ← hf]
    simp [getPath, lookup_foldSet_not_mem ps k kvs hk]
  | s a => simp [dictUpdate] at hf
  | i a => simp [dictUpdate] at hf
  | b a => simp [dictUpdate] at hf
  | null => simp [dictUpdate] at hf
  | arr a => simp [dictUpdate] at hf

/-- Inversion of a successful mutation at a two-key path. -/
theorem mutAt2_ok (a b : String) (f : Yaml → Except PyErr Yaml) (doc d : Yaml)
    (h : mutAt [.key a, .key b] f doc = .ok d) :
    ∃ kvs kvs1 v2 w, doc = .obj kvs ∧ lookupKV a kvs = some (.obj kvs1) ∧
      lookupKV b kvs1 = some v2 ∧ f v2 = .ok w ∧
      d = .obj (setEntry a (.obj (setEntry b w kvs1)) kvs) := by
  cases doc with
  | obj kvs =>
    cases hv1 : lookupKV a kvs with
    | none => simp [mutAt, hv1] at h
    | some v1 =>
      cases v1 with
      | obj kvs1 =>
        cases hv2 : lookupKV b kvs1 with
        | none => simp [mutAt, hv1, hv2, Except.map] at h
        | some v2 =>
          cases hw : f v2 with
          | error e => simp [mutAt, hv1, hv2, hw, Except.map] at h
          | ok w =>
            simp only [mutAt, hv1, hv2, hw, Except.map, Except.ok.injEq] at h
            exact ⟨kvs, kvs1, v2, w, rfl, hv1, hv2, hw, h.symm⟩
      | s v => simp [mutAt, hv1, Except.map] at h
      | i v => simp [mutAt, hv1, Except.map] at h
      | b v => simp [mutAt, hv1, Except.map] at h
      | null => simp [mutAt, hv1, Except.map] at h
      | arr xs => simp [mutAt, hv1, Except.map] at h
  | s v => simp [mutAt] at h
  | i v => simp [mutAt] at h
  | b v => simp [mutAt] at h
  | null => simp [mutAt] at h
  | arr xs => simp [mutAt] at h

/-- Re-assigning the value a key already holds leaves the dict unchanged. -/
theorem setEntry_lookup_self (k : String) (v : Yaml) (kvs : List (String × Yaml))
    (h : lookupKV k kvs = some v) : setEntry k v kvs = kvs := by
  induction kvs with
  | nil => simp [lookupKV] at h
  | cons kv rest ih =>
    obtain ⟨k1, v1⟩ := kv
    by_cases hk : k1 = k
    · subst hk
      simp [lookupKV] at h
      simp [setEntry, h]
    · simp [lookupKV, hk] at h
      simp [setEntry, hk, ih h]

/-- A loop whose body returns every element unchanged returns the list. -/
theorem exMapM_id (g : Yaml → Except PyErr Yaml) (xs : List Yaml)
    (h : ∀ x ∈ xs, g x = .ok x) : exMapM g xs = .ok xs := by
  induction xs with
  | nil => simp [exMapM]
  | cons x xs ih =>
    rw [exMapM, h x (List.mem_cons_self _ _), ih (fun x' h' => h x' (List.mem_cons_of_mem _ h'))]
    rfl

/-- Python `==` between a non-dict value and a dict is `False`. -/
theorem pyEq_nonobj_obj (v : Yaml) (kvs : List (String × Yaml))
    (hv : ∀ okvs, v ≠ .obj okvs) : pyEq v (.obj kvs) = false := by
  cases v with
  | obj okvs => exact absurd rfl (hv okvs)
  | s a => rfl
  | i a => rfl
  | b a => rfl
  | null => rfl
  | arr xs => rfl

/-! ### Claim C6: disabling backup/monitoring removes the subsection -/

/-- C6: for every loaded cluster document, `set_backup` with a falsy tag
removes `spec.backup` entirely (the key is absent afterwards), and
`set_exporter` with a falsy tag removes `spec.monitoring` entirely. -/
theorem backup_exporter_falsy_removes_subsection :
    (∀ doc d : Yaml, CAOCouchbaseClusterFile.set_backup "" doc = .ok d →
      getPath [.key "spec", .key "backup"] d = none) ∧
    (∀ (rate : Int) (doc d : Yaml),
      CAOCouchbaseClusterFile.set_exporter "" rate doc = .ok d →
      getPath [.key "spec", .key "monitoring"] d = none) := by
  constructor
  · intro doc d h
    cases doc with
    | obj kvs =>
      simp only [CAOCouchbaseClusterFile.set_backup] at h
      rw [if_neg (fun hc => hc rfl)] at h
      cases hsp : lookupKV "spec" kvs with
      | some v =>
        rw [hsp] at h
        cases v with
        | obj skvs =>
          cases hb : lookupKV "backup" skvs with
          | some bv =>
            simp only [popKey, hb, Except.map, Except.ok.injEq] at h
            subst h
            simp [getPath, lookupKV_setEntry_self, lookupKV_eraseKey_self]
          | none => simp [popKey, hb, Except.map] at h
        | s a => simp [popKey, Except.map] at h
        | i a => simp [popKey, Except.map] at h
        | b a => simp [popKey, Except.map] at h
        | null => simp [popKey, Except.map] at h
        | arr xs => simp [popKey, Except.map] at h
      | none =>
        rw [hsp] at h
        simp [popKey, Yaml.empty, lookupKV, Except.map] at h
    | s a => simp [CAOCouchbaseClusterFile.set_backup, mutAt] at h
    | i a => simp [CAOCouchbaseClusterFile.set_backup, mutAt] at h
    | b a => simp [CAOCouchbaseClusterFile.set_backup, mutAt] at h
    | null => simp [CAOCouchbaseClusterFile.set_backup, mutAt] at h
    | arr xs => simp [CAOCouchbaseClusterFile.set_backup, mutAt] at h
  · intro rate doc d h
    cases doc with
    | obj kvs =>
      simp only [CAOCouchbaseClusterFile.set_exporter] at h
      rw [if_neg (fun hc => hc rfl)] at h
      cases hsp : lookupKV "spec" kvs with
      | some v =>
        rw [hsp] at h
        cases v with
        | obj skvs =>
          cases hb : lookupKV "monitoring" skvs with
          | some bv =>
            simp only [popKey, hb, Except.map, Except.ok.injEq] at h
            subst h
            simp [getPath, lookupKV_setEntry_self, lookupKV_eraseKey_self]
          | none => simp [popKey, hb, Except.map] at h
        | s a => simp [popKey, Except.map] at h
        | i a => simp [popKey, Except.map] at h
        | b a => simp [popKey, Except.map] at h
        | null => simp [popKey, Except.map] at h
        | arr xs => simp [popKey, Except.map] at h
      | none =>
        rw [hsp] at h
        simp [popKey, Yaml.empty, lookupKV, Except.map] at h
    | s a => simp [CAOCouchbaseClusterFile.set_exporter, mutAt] at h
    | i a => simp [CAOCouchbaseClusterFile.set_exporter, mutAt] at h
    | b a => simp [CAOCouchbaseClusterFile.set_exporter, mutAt] at h
    | null => simp [CAOCouchbaseClusterFile.set_exporter, mutAt] at h
    | arr xs => simp [CAOCouchbaseClusterFile.set_exporter, mutAt] at h

/-- A concrete template with backup and monitoring subsections present. -/
def sidecarDoc : Yaml := .obj
  [("spec", .obj
    [("backup", .obj [("image", .s "backup:1")]),
     ("monitoring", .obj [("prometheus", .obj [("image", .s "exp:1")])]),
     ("cluster", .obj [])])]

/-- Witness for C6 at a concrete document. -/
theorem backup_exporter_falsy_removes_subsection_witness :
    getPath [.key "spec", .key "backup"]
      (.obj [("spec", .obj
        [("monitoring", .obj [("prometheus", .obj [("image", .s "exp:1")])]),
         ("cluster", .obj [])])]) = none ∧
    getPath [.key "spec", .key "monitoring"]
      (.obj [("spec", .obj
        [("backup", .obj [("image", .s "backup:1")]),
         ("cluster", .obj [])])]) = none := by
  constructor
  · exact backup_exporter_falsy_removes_subsection.1 sidecarDoc _ (by rfl)
  · exact backup_exporter_falsy_removes_subsection.2 7 sidecarDoc _ (by rfl)

/-! ### Claim C10: disabling is only safe when the subsection exists -/

/-- C10: on a mapping document whose `spec` is absent or a mapping, calling
`set_backup` with a falsy tag when `spec.backup` is absent raises
`KeyError("backup")` (not a no-op), and `set_exporter` with a falsy tag when
`spec.monitoring` is absent raises `KeyError("monitoring")`. -/
theorem backup_exporter_missing_subsection_raises (kvs : List (String × Yaml))
    (hspec : lookupKV "spec" kvs = none ∨ ∃ skvs, lookupKV "spec" kvs = some (.obj skvs)) :
    (getPath [.key "spec", .key "backup"] (.obj kvs) = none →
      CAOCouchbaseClusterFile.set_backup "" (.obj kvs) = .error (.keyError "backup")) ∧
    (∀ rate : Int, getPath [.key "spec", .key "monitoring"] (.obj kvs) = none →
      CAOCouchbaseClusterFile.set_exporter "" rate (.obj kvs) = .error (.keyError "monitoring")) := by
  constructor
  · intro hb
    simp only [CAOCouchbaseClusterFile.set_backup]
    rw [if_neg (fun hc => hc rfl)]
    rcases hspec with h0 | ⟨skvs, h0⟩
    · simp [h0, popKey, Yaml.empty, lookupKV, Except.map]
    · simp only [getPath, h0, Option.bind] at hb
      cases hbk : lookupKV "backup" skvs with
      | some bv => simp [hbk] at hb
      | none => simp [h0, popKey, hbk, Except.map]
  · intro rate hm
    simp only [CAOCouchbaseClusterFile.set_exporter]
    rw [if_neg (fun hc => hc rfl)]
    rcases hspec with h0 | ⟨skvs, h0⟩
    · simp [h0, popKey, Yaml.empty, lookupKV, Except.map]
    · simp only [getPath, h0, Option.bind] at hm
      cases hbk : lookupKV "monitoring" skvs with
      | some bv => simp [hbk] at hm
      | none => simp [h0, popKey, hbk, Except.map]

/-- Witness for C10 at a concrete document with neither subsection. -/
theorem backup_exporter_missing_subsection_raises_witness :
    CAOCouchbaseClusterFile.set_backup "" (.obj [("spec", .obj [("cluster", .obj [])])]) =
      .error (.keyError "backup") ∧
    CAOCouchbaseClusterFile.set_exporter "" 7 (.obj [("spec", .obj [("cluster", .obj [])])]) =
      .error (.keyError "monitoring") := by
  constructor
  · exact (backup_exporter_missing_subsection_raises
      [("spec", .obj [("cluster", .obj [])])]
      (Or.inr ⟨[("cluster", .obj [])], by rfl⟩)).1 (by rfl)
  · exact (backup_exporter_missing_subsection_raises
      [("spec", .obj [("cluster", .obj [])])]
      (Or.inr ⟨[("cluster", .obj [])], by rfl⟩)).2 7 (by rfl)

/-! ### Claim C4: the autoscaling guard -/

/-- A loop whose body, whenever it succeeds, returns its input unchanged
maps a list to itself. -/
theorem exMapM_ok_id (g : Yaml → Except PyErr Yaml) (xs ys : List Yaml)
    (h : exMapM g xs = .ok ys) (hid : ∀ x ∈ xs, ∀ r, g x = .ok r → r = x) : ys = xs := by
  induction xs generalizing ys with
  | nil =>
    simp [exMapM] at h
    exact h
  | cons x xs ih =>
    cases hg : g x with
    | error e => simp [exMapM, hg] at h
    | ok y0 =>
      cases hrest : exMapM g xs with
      | error e => simp [exMapM, hg, hrest, Except.map] at h
      | ok ys0 =>
        simp only [exMapM, hg, hrest, Except.map, Except.ok.injEq] at h
        subst h
        rw [hid x (List.mem_cons_self _ _) y0 hg,
          ih ys0 hrest (fun x' h' => hid x' (List.mem_cons_of_mem _ h'))]

/-- One server entry has a non-dict `name` value (or is not a dict / has no
`name` at all). -/
def nameNonDict (g : Yaml) : Bool :=
  match g with
  | .obj gkvs =>
    match lookupKV "name" gkvs with
    | some (.obj _) => false
    | _ => true
  | _ => true

/-- Structural check: no entry of `spec.servers` has a dict-valued `name`
field (true of every well-formed cluster manifest, whose names are strings). -/
def serversNamesNonDict (doc : Yaml) : Bool :=
  match getPath [.key "spec", .key "servers"] doc with
  | some (.arr xs) => xs.all nameNonDict
  | _ => true

/-- C4 (amended): the guard `server_group["name"] == server_group` compares a
group's name with the group dict itself, so (for documents whose server names
are not dicts) it is always false and `configure_autoscaling` never sets
`autoscaleEnabled`: whenever it succeeds it returns the document unchanged,
regardless of the named server group. -/
theorem configure_autoscaling_noop ( sever_group : String) (doc d : Yaml)
    (hnames : serversNamesNonDict doc = true)
    (h : CAOCouchbaseClusterFile.configure_autoscaling sever_group doc = .ok d) :
    d = doc := by
  rw [CAOCouchbaseClusterFile.configure_autoscaling] at h
  obtain ⟨kvs, kvs1, v2, w, hdoc, hv1, hv2, hw, hd⟩ := mutAt2_ok _ _ _ _ _ h
  subst hdoc
  cases v2 with
  | arr xs =>
    simp only [CAOCouchbaseClusterFile.mapServers] at hw
    cases hmm : exMapM CAOCouchbaseClusterFile.autoscale_body xs with
    | error e => rw [hmm] at hw; simp [Except.map] at hw
    | ok xs' =>
      rw [hmm] at hw
      simp only [Except.map, Except.ok.injEq] at hw
      have hxs : xs' = xs := by
        refine exMapM_ok_id _ xs xs' hmm ?_
        intro g hg r hr
        have hgn : nameNonDict g = true := by
          have hh : serversNamesNonDict (.obj kvs) = true := hnames
          rw [serversNamesNonDict] at hh
          simp only [getPath, hv1, hv2, Option.bind] at hh
          exact List.all_eq_true.mp hh g hg
        cases g with
        | obj gkvs =>
          cases hn : lookupKV "name" gkvs with
          | none => simp [CAOCouchbaseClusterFile.autoscale_body, getKey, hn] at hr
          | some nm =>
            have hne : pyEq nm (.obj gkvs) = false := by
              cases nm with
              | obj okvs => simp [nameNonDict, hn] at hgn
              | s a => rfl
              | i a => rfl
              | b a => rfl
              | null => rfl
              | arr ys => rfl
            simp only [CAOCouchbaseClusterFile.autoscale_body, getKey, hn, hne,
              Bool.false_eq_true, if_false, Except.ok.injEq] at hr
            exact hr.symm
        | s a => simp [CAOCouchbaseClusterFile.autoscale_body, getKey] at hr
        | i a => simp [CAOCouchbaseClusterFile.autoscale_body, getKey] at hr
        | b a => simp [CAOCouchbaseClusterFile.autoscale_body, getKey] at hr
        | null => simp [CAOCouchbaseClusterFile.autoscale_body, getKey] at hr
        | arr ys => simp [CAOCouchbaseClusterFile.autoscale_body, getKey] at hr
      subst hxs
      subst hw
      rw [hd, setEntry_lookup_self _ _ _ hv2, setEntry_lookup_self _ _ _ hv1]
  | s a => simp [CAOCouchbaseClusterFile.mapServers] at hw
  | i a => simp [CAOCouchbaseClusterFile.mapServers] at hw
  | b a => simp [CAOCouchbaseClusterFile.mapServers] at hw
  | null => simp [CAOCouchbaseClusterFile.mapServers] at hw
  | obj okvs => simp [CAOCouchbaseClusterFile.mapServers] at hw

/-- A concrete cluster document with two string-named server groups. -/
def autoscaleDoc : Yaml := .obj
  [("spec", .obj [("servers", .arr
    [.obj [("name", .s "group1"), ("size", .i 3)],
     .obj [("name", .s "group2"), ("size", .i 2)]])])]

/-- Counterexample to C4 as stated: naming `group1` leaves the document
unchanged — `autoscaleEnabled` is set on no entry of `spec.servers`, so the
guard is not "always true" and the setter does not mark every entry. -/
theorem configure_autoscaling_counterexample :
    CAOCouchbaseClusterFile.configure_autoscaling "group1" autoscaleDoc = .ok autoscaleDoc ∧
    getPath [.key "spec", .key "servers", .idx 0, .key "autoscaleEnabled"]
      autoscaleDoc = none ∧
    getPath [.key "spec", .key "servers", .idx 1, .key "autoscaleEnabled"]
      autoscaleDoc = none := by
  refine ⟨by rfl, by rfl, by rfl⟩

/-- Witness for the amended C4 theorem at a concrete document. -/
theorem configure_autoscaling_noop_witness :
    serversNamesNonDict autoscaleDoc = true ∧ autoscaleDoc = autoscaleDoc :=
  ⟨by rfl, configure_autoscaling_noop "group2" autoscaleDoc autoscaleDoc (by rfl) (by rfl)⟩

/-! ### Claim C5: the version gate on `set_cng_version` -/

/-- C5: with instance version `(2, 5, 0)` the gated `set_cng_version` is a
no-op returning `None` and emitting the warning; with any version at or above
`(2, 6, 0)` it delegates to the underlying setter (the
`spec.networking.cloudNativeGateway` update) and returns its result, with no
warning. -/
theorem set_cng_version_gate (cng_tag : String) (doc : Yaml) :
    ((CAOCouchbaseClusterFile.set_cng_version (some (2, 5, 0)) cng_tag doc).ret = none ∧
     (CAOCouchbaseClusterFile.set_cng_version (some (2, 5, 0)) cng_tag doc).warnings =
       ["Ignoring setting CNG. Feature only supported from version (2, 6, 0) "]) ∧
    (∀ v : Nat × Nat × Nat, CAOCouchbaseClusterFile.vle (2, 6, 0) v = true →
      (CAOCouchbaseClusterFile.set_cng_version (some v) cng_tag doc).ret =
        some (mutAt [.key "spec", .key "networking"]
          (dictUpdate [("cloudNativeGateway", .obj [("image", .s cng_tag)])]) doc) ∧
      (CAOCouchbaseClusterFile.set_cng_version (some v) cng_tag doc).warnings = []) := by
  refine ⟨⟨?_, ?_⟩, ?_⟩
  · rfl
  · rfl
  · intro v hv
    rw [CAOCouchbaseClusterFile.set_cng_version, CAOCouchbaseClusterFile.supported_for]
    rw [if_pos]
    · exact ⟨rfl, rfl⟩
    · simpa using hv

/-- Witness for C5 at the boundary version `(2, 6, 0)`. -/
theorem set_cng_version_gate_witness :
    CAOCouchbaseClusterFile.vle (2, 6, 0) (2, 6, 0) = true ∧
    (CAOCouchbaseClusterFile.set_cng_version (some (2, 6, 0)) "cng:1"
      (.obj [("spec", .obj [("networking", .obj [])])])).ret =
      some (mutAt [.key "spec", .key "networking"]
        (dictUpdate [("cloudNativeGateway", .obj [("image", .s "cng:1")])])
        (.obj [("spec", .obj [("networking", .obj [])])])) :=
  ⟨by rfl, ((set_cng_version_gate "cng:1"
    (.obj [("spec", .obj [("networking", .obj [])])])).2 (2, 6, 0) (by rfl)).1⟩

/-! ### Claim C7: optional service quotas -/

/-- A conditional `spec.cluster.update` step leaves any key it never writes
unchanged. -/
theorem mutUpd_if_preserved (c : Prop) [Decidable c] (q : Path) (ps : List (String × Yaml))
    (k : String) (y z : Yaml)
    (h : (if c then mutAt q (dictUpdate ps) y else .ok y) = .ok z)
    (hk : ∀ kv ∈ ps, kv.1 ≠ k) :
    getPath (q ++ [.key k]) z = getPath (q ++ [.key k]) y := by
  by_cases hc : c
  · rw [if_pos hc] at h
    exact mutUpd_get_preserved q ps k y z h hk
  · rw [if_neg hc] at h
    cases h
    rfl

/-- Every entry of a one-entry update list has a key different from `kt`. -/
theorem singleton_key_ne (k1 kt : String) (v : Yaml) (h : k1 ≠ kt) :
    ∀ kv ∈ [(k1, v)], kv.1 ≠ kt := by
  intro kv hkv
  rcases List.mem_singleton.mp hkv with rfl
  exact h

/-- Every entry of a two-entry update list has a key different from `kt`. -/
theorem pair_keys_ne (k1 k2 kt : String) (v1 v2 : Yaml) (h1 : k1 ≠ kt) (h2 : k2 ≠ kt) :
    ∀ kv ∈ [(k1, v1), (k2, v2)], kv.1 ≠ kt := by
  intro kv hkv
  cases hkv with
  | head => exact h1
  | tail _ htail =>
    cases htail with
    | head => exact h2
    | tail _ h0 => cases h0

/-- C7: `set_memory_quota` always writes the data and index quotas into
`spec.cluster`; it writes the search/analytics/eventing quota if and only if
the corresponding configured value is non-zero — when the value is zero the
corresponding field is left exactly as it was in the input document. -/
theorem set_memory_quota_optional_quotas (tc : TestConfig) (doc d : Yaml)
    (h : CAOCouchbaseClusterFile.set_memory_quota tc doc = .ok d) :
    getPath [.key "spec", .key "cluster", .key "dataServiceMemoryQuota"] d =
      some (.s (toString tc.cluster.mem_quota ++ "Mi")) ∧
    getPath [.key "spec", .key "cluster", .key "indexServiceMemoryQuota"] d =
      some (.s (toString tc.cluster.index_mem_quota ++ "Mi")) ∧
    (tc.cluster.fts_index_mem_quota ≠ 0 →
      getPath [.key "spec", .key "cluster", .key "searchServiceMemoryQuota"] d =
        some (.s (toString tc.cluster.fts_index_mem_quota ++ "Mi"))) ∧
    (tc.cluster.fts_index_mem_quota = 0 →
      getPath [.key "spec", .key "cluster", .key "searchServiceMemoryQuota"] d =
      getPath [.key "spec", .key "cluster", .key "searchServiceMemoryQuota"] doc) ∧
    (tc.cluster.analytics_mem_quota ≠ 0 →
      getPath [.key "spec", .key "cluster", .key "analyticsServiceMemoryQuota"] d =
        some (.s (toString tc.cluster.analytics_mem_quota ++ "Mi"))) ∧
    (tc.cluster.analytics_mem_quota = 0 →
      getPath [.key "spec", .key "cluster", .key "analyticsServiceMemoryQuota"] d =
      getPath [.key "spec", .key "cluster", .key "analyticsServiceMemoryQuota"] doc) ∧
    (tc.cluster.eventing_mem_quota ≠ 0 →
      getPath [.key "spec", .key "cluster", .key "eventingServiceMemoryQuota"] d =
        some (.s (toString tc.cluster.eventing_mem_quota ++ "Mi"))) ∧
    (tc.cluster.eventing_mem_quota = 0 →
      getPath [.key "spec", .key "cluster", .key "eventingServiceMemoryQuota"] d =
      getPath [.key "spec", .key "cluster", .key "eventingServiceMemoryQuota"] doc) := by
  simp only [CAOCouchbaseClusterFile.set_memory_quota] at h
  cases h1 : mutAt [.key "spec", .key "cluster"] (dictUpdate
      [("dataServiceMemoryQuota", .s (toString tc.cluster.mem_quota ++ "Mi")),
       ("indexServiceMemoryQuota", .s (toString tc.cluster.index_mem_quota ++ "Mi"))]) doc with
  | error e => simp [h1] at h
  | ok d1 =>
  rw [h1] at h
  simp only at h
  cases h2 : (if tc.cluster.fts_index_mem_quota ≠ 0 then
      mutAt [.key "spec", .key "cluster"] (dictUpdate
        [("searchServiceMemoryQuota",
          .s (toString tc.cluster.fts_index_mem_quota ++ "Mi"))]) d1
    else .ok d1) with
  | error e => simp [h2] at h
  | ok d2 =>
  rw [h2] at h
  simp only at h
  cases h3 : (if tc.cluster.analytics_mem_quota ≠ 0 then
      mutAt [.key "spec", .key "cluster"] (dictUpdate
        [("analyticsServiceMemoryQuota",
          .s (toString tc.cluster.analytics_mem_quota ++ "Mi"))]) d2
    else .ok d2) with
  | error e => simp [h3] at h
  | ok d3 =>
  rw [h3] at h
  simp only at h
  have h4 : (if tc.cluster.eventing_mem_quota ≠ 0 then
      mutAt [.key "spec", .key "cluster"] (dictUpdate
        [("eventingServiceMemoryQuota",
          .s (toString tc.cluster.eventing_mem_quota ++ "Mi"))]) d3
    else .ok d3) = .ok d := h
  clear h
  refine ⟨?_, ?_, ?_, ?_, ?_, ?_, ?_, ?_⟩
  · -- data quota: set in step 1, preserved afterwards
    have hset : getPath ([.key "spec", .key "cluster"] ++ [.key "dataServiceMemoryQuota"]) d1 =
        some (.s (toString tc.cluster.mem_quota ++ "Mi")) := by
      refine mutUpd_get_last _ _ _ _ _ _ h1 ?_
      intro kvs
      simp only [List.foldl_cons, List.foldl_nil]
      rw [lookupKV_setEntry_ne _ _ _ _ (by decide), lookupKV_setEntry_self]
    have p2 := mutUpd_if_preserved _ _ _ "dataServiceMemoryQuota" _ _ h2
      (singleton_key_ne _ _ _ (by decide))
    have p3 := mutUpd_if_preserved _ _ _ "dataServiceMemoryQuota" _ _ h3
      (singleton_key_ne _ _ _ (by decide))
    have p4 := mutUpd_if_preserved _ _ _ "dataServiceMemoryQuota" _ _ h4
      (singleton_key_ne _ _ _ (by decide))
    simpa using (p4.trans (p3.trans (p2.trans hset)))
  · -- index quota: set in step 1, preserved afterwards
    have hset : getPath ([.key "spec", .key "cluster"] ++ [.key "indexServiceMemoryQuota"]) d1 =
        some (.s (toString tc.cluster.index_mem_quota ++ "Mi")) := by
      refine mutUpd_get_last _ _ _ _ _ _ h1 ?_
      intro kvs
      simp only [List.foldl_cons, List.foldl_nil]
      rw [lookupKV_setEntry_self]
    have p2 := mutUpd_if_preserved _ _ _ "indexServiceMemoryQuota" _ _ h2
      (singleton_key_ne _ _ _ (by decide))
    have p3 := mutUpd_if_preserved _ _ _ "indexServiceMemoryQuota" _ _ h3
      (singleton_key_ne _ _ _ (by decide))
    have p4 := mutUpd_if_preserved _ _ _ "indexServiceMemoryQuota" _ _ h4
      (singleton_key_ne _ _ _ (by decide))
    simpa using (p4.trans (p3.trans (p2.trans hset)))
  · -- search quota, configured: set in step 2, preserved afterwards
    intro hft
    rw [if_pos hft] at h2
    have hset : getPath ([.key "spec", .key "cluster"] ++ [.key "searchServiceMemoryQuota"]) d2 =
        some (.s (toString tc.cluster.fts_index_mem_quota ++ "Mi")) := by
      refine mutUpd_get_last _ _ _ _ _ _ h2 ?_
      intro kvs
      simp only [List.foldl_cons, List.foldl_nil]
      rw [lookupKV_setEntry_self]
    have p3 := mutUpd_if_preserved _ _ _ "searchServiceMemoryQuota" _ _ h3
      (singleton_key_ne _ _ _ (by decide))
    have p4 := mutUpd_if_preserved _ _ _ "searchServiceMemoryQuota" _ _ h4
      (singleton_key_ne _ _ _ (by decide))
    simpa using (p4.trans (p3.trans hset))
  · -- search quota, not configured: never written
    intro hft
    rw [if_neg (fun hc => hc hft)] at h2
    cases h2
    have p1 := mutUpd_get_preserved _ _ "searchServiceMemoryQuota" _ _ h1
      (pair_keys_ne _ _ _ _ _ (by decide) (by decide))
    have p3 := mutUpd_if_preserved _ _ _ "searchServiceMemoryQuota" _ _ h3
      (singleton_key_ne _ _ _ (by decide))
    have p4 := mutUpd_if_preserved _ _ _ "searchServiceMemoryQuota" _ _ h4
      (singleton_key_ne _ _ _ (by decide))
    simpa using (p4.trans (p3.trans p1))
  · -- analytics quota, configured: set in step 3, preserved afterwards
    intro han
    rw [if_pos han] at h3
    have hset : getPath ([.key "spec", .key "cluster"] ++
        [.key "analyticsServiceMemoryQuota"]) d3 =
        some (.s (toString tc.cluster.analytics_mem_quota ++ "Mi")) := by
      refine mutUpd_get_last _ _ _ _ _ _ h3 ?_
      intro kvs
      simp only [List.foldl_cons, List.foldl_nil]
      rw [lookupKV_setEntry_self]
    have p4 := mutUpd_if_preserved _ _ _ "analyticsServiceMemoryQuota" _ _ h4
      (singleton_key_ne _ _ _ (by decide))
    simpa using (p4.trans hset)
  · -- analytics quota, not configured: never written
    intro han
    rw [if_neg (fun hc => hc han)] at h3
    cases h3
    have p1 := mutUpd_get_preserved _ _ "analyticsServiceMemoryQuota" _ _ h1
      (pair_keys_ne _ _ _ _ _ (by decide) (by decide))
    have p2 := mutUpd_if_preserved _ _ _ "analyticsServiceMemoryQuota" _ _ h2
      (singleton_key_ne _ _ _ (by decide))
    have p4 := mutUpd_if_preserved _ _ _ "analyticsServiceMemoryQuota" _ _ h4
      (singleton_key_ne _ _ _ (by decide))
    simpa using (p4.trans (p2.trans p1))
  · -- eventing quota, configured: set in step 4
    intro hev
    rw [if_pos hev] at h4
    have hset : getPath ([.key "spec", .key "cluster"] ++
        [.key "eventingServiceMemoryQuota"]) d =
        some (.s (toString tc.cluster.eventing_mem_quota ++ "Mi")) := by
      refine mutUpd_get_last _ _ _ _ _ _ h4 ?_
      intro kvs
      simp only [List.foldl_cons, List.foldl_nil]
      rw [lookupKV_setEntry_self]
    simpa using hset
  · -- eventing quota, not configured: never written
    intro hev
    rw [if_neg (fun hc => hc hev)] at h4
    cases h4
    have p1 := mutUpd_get_preserved _ _ "eventingServiceMemoryQuota" _ _ h1
      (pair_keys_ne _ _ _ _ _ (by decide) (by decide))
    have p2 := mutUpd_if_preserved _ _ _ "eventingServiceMemoryQuota" _ _ h2
      (singleton_key_ne _ _ _ (by decide))
    have p3 := mutUpd_if_preserved _ _ _ "eventingServiceMemoryQuota" _ _ h3
      (singleton_key_ne _ _ _ (by decide))
    simpa using (p3.trans (p2.trans p1))

/-- A test configuration with search and eventing quotas unset (zero). -/
def memTC : TestConfig :=
  ⟨⟨256, 512, 0, 100, 0, 0, 0, []⟩, ⟨false, [], 0⟩, ⟨"30", "30", false⟩, [], fun _ => []⟩

/-- A template with an empty `spec.cluster` section. -/
def memDoc : Yaml := .obj [("spec", .obj [("cluster", .obj [])])]

/-- The document produced by `set_memory_quota memTC memDoc`. -/
def memDocOut : Yaml := .obj [("spec", .obj [("cluster", .obj
  [("dataServiceMemoryQuota", .s "256Mi"),
   ("indexServiceMemoryQuota", .s "512Mi"),
   ("analyticsServiceMemoryQuota", .s "100Mi")])])]

/-- Witness for C7 at a concrete configuration and template. -/
theorem set_memory_quota_optional_quotas_witness :
    getPath [.key "spec", .key "cluster", .key "dataServiceMemoryQuota"] memDocOut =
      some (.s "256Mi") ∧
    getPath [.key "spec", .key "cluster", .key "searchServiceMemoryQuota"] memDocOut =
      getPath [.key "spec", .key "cluster", .key "searchServiceMemoryQuota"] memDoc := by
  have h := set_memory_quota_optional_quotas memTC memDoc memDocOut (by rfl)
  exact ⟨h.1, h.2.2.2.1 (by rfl)⟩

/-! ### The `ConfigFile` load/write state machine -/

/-- Recognized file formats (`FileType` in the source). -/
inductive FileType where
  | INI
  | YAML
  | JSON
  deriving DecidableEq, Repr

/-- Serialized on-disk content.  The external YAML/JSON parsers and the
key-value (INI) backend are abstracted as faithful serializations: a file
holds the parsed representation directly. -/
inductive FileData where
  | yamlDocs (ds : List Yaml)
  | jsonDoc (d : Yaml)
  | iniData (c : Yaml)

/-- The filesystem: a partial map from paths to file contents. -/
def FS : Type := String → Option FileData

/-- In-memory state of a `ConfigFile` object.  `ini_config` is `none` until
the INI branch of `read_file` assigns it (in Python the attribute does not
exist before that). -/
structure ConfigFileSt where
  source_file : String
  dest_file : String
  file_type : FileType
  all_configs : List Yaml
  config : Yaml
  ini_config : Option Yaml

/-- `_get_type`: infer the format from the file extension. -/
def get_type (source_file : String) : FileType :=
  if source_file.endsWith ".yaml" then .YAML
  else if source_file.endsWith ".json" then .JSON
  else .INI

/-- `ConfigFile.__init__`: source and dest start at the same path; documents
are not loaded yet. -/
def ConfigFile.init (file_path : String) (file_type : Option FileType) : ConfigFileSt :=
  ⟨file_path, file_path, file_type.getD (get_type file_path), [], Yaml.null, none⟩

/-- `read_file`: a missing source yields a single empty document (the file
will be created on `write`); otherwise parse according to the file type.
`Modelled from the spec:` the INI branch delegates to the external
`perfrunner.settings.Config` reader (not under `src/`), abstracted as
returning the stored options dict and remembering it in `ini_config`;
reading a file whose content does not parse as the expected format is a
propagated parse error. -/
def read_file (fs : FS) (st : ConfigFileSt) : Except PyErr (List Yaml × Option Yaml) :=
  match fs st.source_file with
  | none => .ok ([Yaml.empty], st.ini_config)
  | some fdata =>
    match st.file_type, fdata with
    | .YAML, .yamlDocs ds => .ok (ds, st.ini_config)
    | .JSON, .jsonDoc d => .ok ([d], st.ini_config)
    | .INI, .iniData c => .ok ([c], some c)
    | _, _ => .error .valueError

/-- `load_config`: read all documents and point `config` at the first one. -/
def load_config (fs : FS) (st : ConfigFileSt) : Except PyErr ConfigFileSt :=
  match read_file fs st with
  | .error e => .error e
  | .ok (ds, ini) =>
    match ds with
    | [] => .error .indexError
    | c :: rest => .ok ⟨st.source_file, st.dest_file, st.file_type, c :: rest, c, ini⟩

/-- `reload_from_dest`: re-point the source at the destination and reload. -/
def reload_from_dest (fs : FS) (st : ConfigFileSt) : Except PyErr ConfigFileSt :=
  load_config fs ⟨st.dest_file, st.dest_file, st.file_type,
    st.all_configs, st.config, st.ini_config⟩

/-- `write`: serialize to the destination — all documents for YAML, the
single `config` for JSON.  `Modelled from the spec:` the INI branch delegates
to `ini_config.update_spec_file` (external writer, outside core scope),
writing the remembered INI state; when `ini_config` was never assigned the
attribute lookup fails (`AttributeError`), which is determined by the code
under `src/` (only `read_file`'s INI branch assigns it). -/
def write (fs : FS) (st : ConfigFileSt) : Except PyErr FS :=
  match st.file_type with
  | .YAML => .ok (fun p => if p = st.dest_file then some (.yamlDocs st.all_configs) else fs p)
  | .JSON => .ok (fun p => if p = st.dest_file then some (.jsonDoc st.config) else fs p)
  | .INI =>
    match st.ini_config with
    | some c => .ok (fun p => if p = st.dest_file then some (.iniData c) else fs p)
    | none => .error .attributeError

/-- The serialized content `write` stores at the destination. -/
def writtenData (st : ConfigFileSt) : Option FileData :=
  match st.file_type with
  | .YAML => some (.yamlDocs st.all_configs)
  | .JSON => some (.jsonDoc st.config)
  | .INI => st.ini_config.map .iniData

/-- Whatever `write` produced holds the serialization of the in-memory state
at the destination path. -/
theorem write_dest (fs : FS) (st : ConfigFileSt) (fs' : FS) (h : write fs st = .ok fs') :
    fs' st.dest_file = writtenData st := by
  cases hft : st.file_type with
  | YAML =>
    simp only [write, hft, Except.ok.injEq] at h
    subst h
    simp [writtenData, hft]
  | JSON =>
    simp only [write, hft, Except.ok.injEq] at h
    subst h
    simp [writtenData, hft]
  | INI =>
    cases hini : st.ini_config with
    | some c =>
      simp only [write, hft, hini, Except.ok.injEq] at h
      subst h
      simp [writtenData, hft, hini]
    | none => simp [write, hft, hini] at h

/-- `write()` followed by `reload_from_dest()` (the round trip of C2). -/
def write_then_reload (fs : FS) (st : ConfigFileSt) : Except PyErr ConfigFileSt :=
  match write fs st with
  | .error e => .error e
  | .ok fs' => reload_from_dest fs' st

/-- Any state produced by `load_config` on a JSON or INI file holds exactly
one document (multi-document sets arise only for YAML). -/
theorem load_config_non_yaml_singleton (fs : FS) (st st' : ConfigFileSt)
    (h : load_config fs st = .ok st') (hft : st.file_type ≠ .YAML) :
    ∃ c, st'.all_configs = [c] := by
  cases hrd : fs st.source_file with
  | none =>
    simp only [load_config, read_file, hrd] at h
    cases h
    exact ⟨Yaml.empty, rfl⟩
  | some fdata =>
    cases hft' : st.file_type with
    | YAML => exact absurd hft' hft
    | JSON =>
      cases fdata with
      | jsonDoc d =>
        simp only [load_config, read_file, hrd, hft'] at h
        cases h
        exact ⟨d, rfl⟩
      | yamlDocs ds => simp [load_config, read_file, hrd, hft'] at h
      | iniData c => simp [load_config, read_file, hrd, hft'] at h
    | INI =>
      cases fdata with
      | iniData c =>
        simp only [load_config, read_file, hrd, hft'] at h
        cases h
        exact ⟨c, rfl⟩
      | yamlDocs ds => simp [load_config, read_file, hrd, hft'] at h
      | jsonDoc d => simp [load_config, read_file, hrd, hft'] at h

/-- C2: for a loaded document set (head document aliased as `config`, and a
singleton for the single-object JSON format, as `load_config` guarantees),
writing and reloading from the destination restores exactly the same document
sequence — same documents, same count, same order — with the source re-pointed
at the destination. -/
theorem write_reload_round_trip (fs : FS) (st : ConfigFileSt) (c : Yaml) (rest : List Yaml)
    (hcfg : st.all_configs = c :: rest) (hhead : st.config = c)
    (hft : st.file_type = .YAML ∨ (st.file_type = .JSON ∧ rest = [])) :
    write_then_reload fs st = .ok
      ⟨st.dest_file, st.dest_file, st.file_type, st.all_configs, st.config, st.ini_config⟩ := by
  rcases hft with hft | ⟨hft, hrest⟩
  · simp only [write_then_reload, write, hft, reload_from_dest, load_config, read_file]
    simp [hft, hcfg, hhead]
  · subst hrest
    simp only [write_then_reload, write, hft, reload_from_dest, load_config, read_file]
    simp [hft, hcfg, hhead]

/-- Witness for C2: a two-document YAML state round-trips unchanged. -/
theorem write_reload_round_trip_witness :
    write_then_reload (fun _ => none)
      ⟨"a.yaml", "a.yaml", .YAML, [.obj [("a", .i 1)], .obj [("b", .i 2)]],
        .obj [("a", .i 1)], none⟩ = .ok
      ⟨"a.yaml", "a.yaml", .YAML, [.obj [("a", .i 1)], .obj [("b", .i 2)]],
        .obj [("a", .i 1)], none⟩ :=
  write_reload_round_trip (fun _ => none) _ (.obj [("a", .i 1)]) [.obj [("b", .i 2)]]
    rfl rfl (Or.inl rfl)

/-! ### Claim C3: scoped-session semantics -/

/-- The Python `with`-statement protocol over states of type `σ`: run
`enter`; on success run the body, which yields a final state and optionally a
raised error; then always run `exitF`; an error raised by `exitF` itself
propagates (replacing the body's), otherwise the body's error propagates
unless the exit result suppresses it. -/
def pyWith {σ : Type} (enter : σ → Except PyErr σ)
    (exitF : σ → Option PyErr → Except PyErr (σ × Bool))
    (body : σ → σ × Option PyErr) (s : σ) : Except PyErr (σ × Option PyErr) :=
  match enter s with
  | .error e => .error e
  | .ok s1 =>
    let bres := body s1
    match exitF bres.1 bres.2 with
    | .error we => .error we
    | .ok (s3, suppress) => .ok (s3, if suppress then none else bres.2)

/-- `ConfigFile.__enter__`: perform `load_config` and return the object. -/
def configFileEnter (x : FS × ConfigFileSt) : Except PyErr (FS × ConfigFileSt) :=
  match load_config x.1 x.2 with
  | .error e => .error e
  | .ok st => .ok (x.1, st)

/-- `ConfigFile.__exit__`: ignore the exception information, perform
`write()`, and return `None` (never suppressing the body's exception). -/
def configFileExit (x : FS × ConfigFileSt) (exc : Option PyErr) :
    Except PyErr ((FS × ConfigFileSt) × Bool) :=
  match write x.1 x.2 with
  | .error e => .error e
  | .ok fs' => .ok ((fs', x.2), false)

/-- A `with ConfigFile(...)` session running `body` against filesystem `fs`. -/
def withConfigFile (fs : FS) (st : ConfigFileSt)
    (body : FS × ConfigFileSt → (FS × ConfigFileSt) × Option PyErr) :
    Except PyErr ((FS × ConfigFileSt) × Option PyErr) :=
  pyWith configFileEnter configFileExit body (fs, st)

/-- C3: entering the session performs `load_config` (a load failure
propagates and nothing is written); leaving the session performs `write`
unconditionally on the body's final state — both when the body completes
normally (`berr = none`) and when it raises (`berr = some e`) — after which
the destination holds the serialization of the in-memory state and the
body's error, if any, still propagates un-suppressed; a failure of the write
itself propagates to the caller. -/
theorem with_session_always_writes (fs : FS) (st : ConfigFileSt)
    (body : FS × ConfigFileSt → (FS × ConfigFileSt) × Option PyErr) :
    (∀ e, load_config fs st = .error e → withConfigFile fs st body = .error e) ∧
    (∀ st1 s2 berr, load_config fs st = .ok st1 → body (fs, st1) = (s2, berr) →
      (∀ fs', write s2.1 s2.2 = .ok fs' →
        withConfigFile fs st body = .ok ((fs', s2.2), berr) ∧
        fs' s2.2.dest_file = writtenData s2.2) ∧
      (∀ we, write s2.1 s2.2 = .error we → withConfigFile fs st body = .error we)) := by
  constructor
  · intro e he
    simp [withConfigFile, pyWith, configFileEnter, he]
  · intro st1 s2 berr hld hbody
    constructor
    · intro fs' hw
      constructor
      · simp [withConfigFile, pyWith, configFileEnter, hld, hbody, configFileExit, hw]
      · exact write_dest _ _ _ hw
    · intro we hw
      simp [withConfigFile, pyWith, configFileEnter, hld, hbody, configFileExit, hw]

/-- Witness for C3: a body that raises still gets its mutation written, and
the error propagates. -/
theorem with_session_always_writes_witness :
    (withConfigFile (fun _ => none)
      ⟨"a.yaml", "a.yaml", .YAML, [], .null, none⟩
      (fun x => ((x.1, ⟨x.2.source_file, x.2.dest_file, x.2.file_type,
        [.obj [("k", .i 7)]], .obj [("k", .i 7)], x.2.ini_config⟩),
        some (.keyError "boom")))).map
      (fun r => (r.1.1 "a.yaml", r.1.2.all_configs, r.2)) =
    .ok (some (.yamlDocs [.obj [("k", .i 7)]]), [.obj [("k", .i 7)]],
      some (.keyError "boom")) := by
  obtain ⟨-, hrest⟩ := with_session_always_writes (fun _ => none)
    ⟨"a.yaml", "a.yaml", .YAML, [], .null, none⟩
    (fun x => ((x.1, ⟨x.2.source_file, x.2.dest_file, x.2.file_type,
      [.obj [("k", .i 7)]], .obj [("k", .i 7)], x.2.ini_config⟩),
      some (.keyError "boom")))
  obtain ⟨hok, -⟩ := hrest
    ⟨"a.yaml", "a.yaml", .YAML, [Yaml.empty], Yaml.empty, none⟩ _ _ (by rfl) rfl
  obtain ⟨heq, -⟩ := hok
    (fun p => if p = "a.yaml" then some (.yamlDocs [.obj [("k", .i 7)]])
      else (fun _ => none : FS) p) (by rfl)
  rw [heq]
  rfl

/-! ### Claim C8: missing source and create-on-write -/

/-- C8: when the source path does not exist, `load_config` succeeds with
exactly one empty document; a subsequent `write` then creates the destination
from the in-memory state for YAML and JSON files — but for an INI file whose
backend was never initialized (`ini_config` still unset, as is the case after
loading a missing source) `write` raises `AttributeError` instead. -/
theorem missing_source_create_on_write (fs : FS) (st : ConfigFileSt)
    (hmiss : fs st.source_file = none) :
    load_config fs st = .ok
      ⟨st.source_file, st.dest_file, st.file_type, [Yaml.empty], Yaml.empty, st.ini_config⟩ ∧
    (∀ st', load_config fs st = .ok st' →
      (st.file_type = .YAML →
        ∃ fs', write fs st' = .ok fs' ∧ fs' st.dest_file = some (.yamlDocs [Yaml.empty])) ∧
      (st.file_type = .JSON →
        ∃ fs', write fs st' = .ok fs' ∧ fs' st.dest_file = some (.jsonDoc Yaml.empty)) ∧
      (st.file_type = .INI → st.ini_config = none →
        write fs st' = .error .attributeError)) := by
  have hld : load_config fs st = .ok
      ⟨st.source_file, st.dest_file, st.file_type, [Yaml.empty], Yaml.empty, st.ini_config⟩ := by
    simp [load_config, read_file, hmiss]
  refine ⟨hld, ?_⟩
  intro st' hld'
  rw [hld] at hld'
  cases hld'
  refine ⟨?_, ?_, ?_⟩
  · intro hft
    refine ⟨fun p => if p = st.dest_file then some (.yamlDocs [Yaml.empty]) else fs p, ?_, ?_⟩
    · simp [write, hft]
    · simp
  · intro hft
    refine ⟨fun p => if p = st.dest_file then some (.jsonDoc Yaml.empty) else fs p, ?_, ?_⟩
    · simp [write, hft]
    · simp
  · intro hft hini
    simp [write, hft, hini]

/-- Witness for C8: an INI config file with a missing source loads one empty
document, but the subsequent write raises instead of creating the file. -/
theorem missing_source_create_on_write_witness :
    load_config (fun _ => none) ⟨"cluster.spec", "cluster.spec", .INI, [], .null, none⟩ = .ok
      ⟨"cluster.spec", "cluster.spec", .INI, [Yaml.empty], Yaml.empty, none⟩ ∧
    write (fun _ => none)
      ⟨"cluster.spec", "cluster.spec", .INI, [Yaml.empty], Yaml.empty, none⟩ =
      .error .attributeError := by
  obtain ⟨hld, hrest⟩ := missing_source_create_on_write (fun _ => none)
    ⟨"cluster.spec", "cluster.spec", .INI, [], .null, none⟩ rfl
  obtain ⟨-, -, hini⟩ := hrest _ hld
  exact ⟨hld, hini rfl rfl⟩

/-! ### `spring/cbgen4.py`: synchronous vs asynchronous client operations

The underlying couchbase collection handle is modelled as a key-value store;
its `get`/`upsert` calls return a result object (or raise).  The `time_all`
decorator from `spring.cbgen_helpers` is not under `src/`.
`Modelled from the spec:` it is latency-timing capture wrapping a data
operation for reporting, leaving the call's effect, error behavior and return
value unchanged.  What distinguishes the synchronous overrides is in `src/`:
their bodies call `super().do_*(...)` without a `return` statement. -/

/-- Result object of an underlying client call. -/
inductive OpResult where
  | getRes (v : Yaml)
  | mutRes (key : String)
  deriving Repr

/-- Errors raised by the underlying client. -/
inductive ClientErr where
  | documentNotFound (key : String)
  deriving DecidableEq, Repr

/-- One collection's documents. -/
def KVStore : Type := List (String × Yaml)

/-- `collection.get(key)`. -/
def clientGet (store : KVStore) (key : String) : Except ClientErr (KVStore × OpResult) :=
  match lookupKV key store with
  | some v => .ok (store, .getRes v)
  | none => .error (.documentNotFound key)

/-- `collection.upsert(key, doc, expiry=ttl, ...)`. -/
def clientUpsert (store : KVStore) (key : String) (doc : Yaml) ( ttl : Nat) :
    KVStore × OpResult :=
  (setEntry key doc store, .mutRes key)

namespace CBAsyncGen4

/-- `CBAsyncGen4.do_read`: returns the result of `collection.get`. -/
def do_read (store : KVStore) (key : String) :
    Except ClientErr (KVStore × Option OpResult) :=
  match clientGet store key with
  | .ok (st, r) => .ok (st, some r)
  | .error e => .error e

/-- `CBAsyncGen4.do_upsert`: returns the result of `collection.upsert`. -/
def do_upsert (store : KVStore) (key : String) (doc : Yaml)
    (persist_to replicate_to ttl : Nat) : Except ClientErr (KVStore × Option OpResult) :=
  let r := clientUpsert store key doc ttl
  .ok (r.1, some r.2)

/-- `CBAsyncGen4.do_upsert_durable`: returns the result of
`collection.upsert(..., durability=ServerDurability(...))`. -/
def do_upsert_durable (store : KVStore) (key : String) (doc : Yaml)
    (durability ttl : Nat) : Except ClientErr (KVStore × Option OpResult) :=
  let r := clientUpsert store key doc ttl
  .ok (r.1, some r.2)

/-- `CBAsyncGen4.read`: select the collection, delegate to `do_read` and
return its result. -/
def read (store : KVStore) (key : String) : Except ClientErr (KVStore × Option OpResult) :=
  do_read store key

/-- `CBAsyncGen4.update`: select the collection, delegate to `do_upsert` and
return its result. -/
def update (store : KVStore) (key : String) (doc : Yaml)
    (persist_to replicate_to ttl : Nat) : Except ClientErr (KVStore × Option OpResult) :=
  do_upsert store key doc persist_to replicate_to ttl

/-- `CBAsyncGen4.update_durable`. -/
def update_durable (store : KVStore) (key : String) (doc : Yaml)
    (durability ttl : Nat) : Except ClientErr (KVStore × Option OpResult) :=
  do_upsert_durable store key doc durability ttl

end CBAsyncGen4

namespace CBGen4

/-- `CBGen4.do_read` (`@time_all`): calls `super().do_read(...)` with no
`return`, so the caller receives `None`; the effect and error behavior of the
underlying call are unchanged. -/
def do_read (store : KVStore) (key : String) :
    Except ClientErr (KVStore × Option OpResult) :=
  match CBAsyncGen4.do_read store key with
  | .ok (st, _) => .ok (st, none)
  | .error e => .error e

/-- `CBGen4.do_upsert` (`@time_all`): calls `super().do_upsert(...)` with no
`return`. -/
def do_upsert (store : KVStore) (key : String) (doc : Yaml)
    (persist_to replicate_to ttl : Nat) : Except ClientErr (KVStore × Option OpResult) :=
  match CBAsyncGen4.do_upsert store key doc persist_to replicate_to ttl with
  | .ok (st, _) => .ok (st, none)
  | .error e => .error e

/-- `CBGen4.do_update_durable` (`@time_all`): calls
`super().do_upsert_durable(...)` with no `return`. -/
def do_update_durable (store : KVStore) (key : String) (doc : Yaml)
    (durability ttl : Nat) : Except ClientErr (KVStore × Option OpResult) :=
  match CBAsyncGen4.do_upsert_durable store key doc durability ttl with
  | .ok (st, _) => .ok (st, none)
  | .error e => .error e

/-- `CBGen4.read` (inherited from `CBAsyncGen4`, dynamic dispatch lands in
the overridden `do_read`). -/
def read (store : KVStore) (key : String) : Except ClientErr (KVStore × Option OpResult) :=
  do_read store key

/-- `CBGen4.update` (inherited, dispatches to the overridden `do_upsert`). -/
def update (store : KVStore) (key : String) (doc : Yaml)
    (persist_to replicate_to ttl : Nat) : Except ClientErr (KVStore × Option OpResult) :=
  do_upsert store key doc persist_to replicate_to ttl

/-- `CBGen4.update_durable` (inherited, dispatches to `do_update_durable`). -/
def update_durable (store : KVStore) (key : String) (doc : Yaml)
    (durability ttl : Nat) : Except ClientErr (KVStore × Option OpResult) :=
  do_update_durable store key doc durability ttl

end CBGen4

/-- Counterexample to C9 as stated: on a store holding key `k`, the
asynchronous `read` returns the client's get-result to its caller while the
synchronous `read` returns `None` — the returned results differ. -/
theorem sync_async_return_counterexample :
    CBAsyncGen4.read [("k", .s "v")] "k" =
      .ok ([("k", .s "v")], some (.getRes (.s "v"))) ∧
    CBGen4.read [("k", .s "v")] "k" = .ok ([("k", .s "v")], none) ∧
    (some (OpResult.getRes (.s "v")) : Option OpResult) ≠ none := by
  refine ⟨by rfl, by rfl, by simp⟩

/-- C9 (amended): for every collection store, key, document and arguments,
the synchronous `read`/`update`/`update_durable` perform exactly the same
underlying client call as the asynchronous variants — same store effect, same
error behavior — but return `None` to their caller where the asynchronous
variants return the underlying client call's result. -/
theorem sync_read_update_discard_result (store : KVStore) (key : String) (doc : Yaml)
    (persist_to replicate_to durability ttl : Nat) :
    (∀ st r, CBAsyncGen4.read store key = .ok (st, r) →
      CBGen4.read store key = .ok (st, none)) ∧
    (∀ e, CBAsyncGen4.read store key = .error e →
      CBGen4.read store key = .error e) ∧
    (∀ st r, CBAsyncGen4.update store key doc persist_to replicate_to ttl = .ok (st, r) →
      CBGen4.update store key doc persist_to replicate_to ttl = .ok (st, none)) ∧
    (∀ st r, CBAsyncGen4.update_durable store key doc durability ttl = .ok (st, r) →
      CBGen4.update_durable store key doc durability ttl = .ok (st, none)) := by
  refine ⟨?_, ?_, ?_, ?_⟩
  · intro st r h
    simp only [CBGen4.read, CBGen4.do_read, CBAsyncGen4.read] at h ⊢
    rw [h]
  · intro e h
    simp only [CBGen4.read, CBGen4.do_read, CBAsyncGen4.read] at h ⊢
    rw [h]
  · intro st r h
    simp only [CBGen4.update, CBGen4.do_upsert, CBAsyncGen4.update] at h ⊢
    rw [h]
  · intro st r h
    simp only [CBGen4.update_durable, CBGen4.do_update_durable,
      CBAsyncGen4.update_durable] at h ⊢
    rw [h]

/-- Witness for the amended C9 theorem at a concrete store and key. -/
theorem sync_read_update_discard_result_witness :
    CBGen4.read [("k", .s "v")] "k" = .ok ([("k", .s "v")], none) ∧
    CBGen4.update [] "k" (.s "w") 0 0 0 = .ok ([("k", .s "w")], none) := by
  obtain ⟨hr, -, hu, -⟩ := sync_read_update_discard_result [("k", .s "v")] "k" (.s "w") 0 0 0 0
  obtain ⟨-, -, hu2, -⟩ := sync_read_update_discard_result [] "k" (.s "w") 0 0 0 0
  exact ⟨hr _ _ (by rfl), hu2 _ _ (by rfl)⟩

/-! ### Claim C1: frame machinery -/

theorem pdisj_nil_right (r : Path) : pdisj r [] = false := by
  cases r <;> rfl

theorem pdisj_append_same (q r1 r2 : Path) : pdisj (q ++ r1) (q ++ r2) = pdisj r1 r2 := by
  induction q with
  | nil => rfl
  | cons a q ih => simp [pdisj, ih]

theorem pdisj_eq_false_of_prefix (p q : Path) (h : p <+: q) : pdisj p q = false := by
  induction p generalizing q with
  | nil => rfl
  | cons a p ih =>
    obtain ⟨r, rfl⟩ := h
    simp only [List.cons_append, pdisj, bne_self_eq_false, Bool.false_or]
    exact ih _ ⟨r, rfl⟩

theorem prefix_or_of_pdisj_eq_false (p q : Path) (h : pdisj p q = false) :
    p <+: q ∨ q <+: p := by
  induction p generalizing q with
  | nil => exact Or.inl List.nil_prefix
  | cons a p ih =>
    cases q with
    | nil => exact Or.inr List.nil_prefix
    | cons b q' =>
      simp only [pdisj, Bool.or_eq_false_iff, bne_eq_false_iff_eq] at h
      obtain ⟨hab, hpq⟩ := h
      subst hab
      rcases ih q' hpq with h1 | h1
      · exact Or.inl (List.cons_prefix_cons.mpr ⟨rfl, h1⟩)
      · exact Or.inr (List.cons_prefix_cons.mpr ⟨rfl, h1⟩)

/-- After a successful loop-body call, the element is unchanged, or both old
and new are dicts agreeing on every key outside `ks`. -/
def objAgreeOutside (ks : List String) (x r : Yaml) : Prop :=
  r = x ∨ (∃ kvs kvs', x = .obj kvs ∧ r = .obj kvs' ∧
    ∀ k', (∀ kk ∈ ks, kk ≠ k') → lookupKV k' kvs' = lookupKV k' kvs)

/-- Setting an index to the value it already holds leaves the list unchanged. -/
theorem set_lookup_self (xs : List Yaml) (n : Nat) (v : Yaml) (h : xs[n]? = some v) :
    xs.set n v = xs := by
  induction xs generalizing n with
  | nil => simp at h
  | cons x xs ih =>
    cases n with
    | zero =>
      simp at h
      simp [List.set, h]
    | succ m =>
      simp at h
      simp [List.set, ih m h]

/-- A mutation whose inner function returns the navigated value unchanged
leaves the whole document unchanged. -/
theorem mutAt_id (q : Path) (f : Yaml → Except PyErr Yaml) (y d : Yaml)
    (h : mutAt q f y = .ok d)
    (hf : ∀ v r, getPath q y = some v → f v = .ok r → r = v) : d = y := by
  induction q generalizing y d with
  | nil => exact hf y d rfl h
  | cons st q ih =>
    cases st with
    | key k =>
      cases y with
      | obj kvs =>
        cases hv : lookupKV k kvs with
        | none => simp [mutAt, hv] at h
        | some v0 =>
          cases hm : mutAt q f v0 with
          | error e => simp [mutAt, hv, hm, Except.map] at h
          | ok v0' =>
            simp only [mutAt, hv, hm, Except.map, Except.ok.injEq] at h
            have hid : v0' = v0 := by
              refine ih v0 v0' hm ?_
              intro v r hgv hfv
              refine hf v r ?_ hfv
              simp [getPath, hv, hgv]
            subst hid
            rw [← h, setEntry_lookup_self _ _ _ hv]
      | s a => simp [mutAt] at h
      | i a => simp [mutAt] at h
      | b a => simp [mutAt] at h
      | null => simp [mutAt] at h
      | arr xs => simp [mutAt] at h
    | idx n =>
      cases y with
      | arr xs =>
        cases hv : xs[n]? with
        | none => simp [mutAt, hv] at h
        | some v0 =>
          cases hm : mutAt q f v0 with
          | error e => simp [mutAt, hv, hm, Except.map] at h
          | ok v0' =>
            simp only [mutAt, hv, hm, Except.map, Except.ok.injEq] at h
            have hid : v0' = v0 := by
              refine ih v0 v0' hm ?_
              intro v r hgv hfv
              refine hf v r ?_ hfv
              simp [getPath, hv, hgv]
            subst hid
            rw [← h, set_lookup_self _ _ _ hv]
      | s a => simp [mutAt] at h
      | i a => simp [mutAt] at h
      | b a => simp [mutAt] at h
      | null => simp [mutAt] at h
      | obj kvs => simp [mutAt] at h

/-- Frame for a mutation at `q` whose inner function only rewrites keys of
`ks` at that node: every path disjoint from each `q ++ [kk]` is unchanged. -/
theorem mutAgree_frame (q : Path) (f : Yaml → Except PyErr Yaml) (ks : List String)
    (kk0 : String) (hks : kk0 ∈ ks) (y d : Yaml) (p : Path)
    (h : mutAt q f y = .ok d)
    (hf : ∀ x r, f x = .ok r → objAgreeOutside ks x r)
    (hp : ∀ kk ∈ ks, pdisj p (q ++ [.key kk]) = true) :
    getPath p d = getPath p y := by
  obtain ⟨v, w, hget, hfv, hfr, hdw, hyv⟩ := mutAt_ok q f y d h
  cases hdq : pdisj p q with
  | true => exact hfr p hdq
  | false =>
    rcases prefix_or_of_pdisj_eq_false p q hdq with hpre | hpre
    · exfalso
      have hfalse : pdisj p (q ++ [.key kk0]) = false :=
        pdisj_eq_false_of_prefix _ _ (hpre.trans (List.prefix_append q _))
      rw [hp kk0 hks] at hfalse
      exact Bool.true_eq_false.mp hfalse
    · obtain ⟨r, rfl⟩ := hpre
      cases r with
      | nil =>
        exfalso
        have hfalse : pdisj (q ++ []) (q ++ [.key kk0]) = false := by
          rw [List.append_nil]
          exact pdisj_eq_false_of_prefix _ _ (List.prefix_append q _)
        rw [hp kk0 hks] at hfalse
        exact Bool.true_eq_false.mp hfalse
      | cons step r' =>
        rw [hdw (step :: r'), hyv (step :: r')]
        have hstep : ∀ kk ∈ ks, (step != .key kk) = true := by
          intro kk hkk
          have := hp kk hkk
          rw [pdisj_append_same q (step :: r') [.key kk]] at this
          simpa [pdisj, pdisj_nil_right] using this
        rcases hf v w hfv with hw | ⟨kvs, kvs', hx, hr, hagree⟩
        · rw [hw]
        · subst hx
          subst hr
          cases step with
          | key k'' =>
            have hne : ∀ kk ∈ ks, kk ≠ k'' := by
              intro kk hkk heq
              have := hstep kk hkk
              subst heq
              simp at this
            simp [getPath, hagree k'' hne]
          | idx n => simp [getPath]

/-- Frame for a mutation at `q` that iterates a loop body over the array
there: the body leaves elements with `cond x = false` unchanged and rewrites
only keys of `ks` on the others, so every path disjoint from each
`q ++ [i, kk]` (for elements with `cond` set) is unchanged. -/
theorem mapServers_frame (q : Path) (g : Yaml → Except PyErr Yaml) (ks : List String)
    (kk0 : String) (hks : kk0 ∈ ks) (cond : Yaml → Bool) (y d : Yaml) (p : Path)
    (h : mutAt q (CAOCouchbaseClusterFile.mapServers g) y = .ok d)
    (hg : ∀ x r, g x = .ok r → (cond x = false → r = x) ∧ objAgreeOutside ks x r)
    (hp : ∀ (xs : List Yaml) (iN : Nat) (x : Yaml), getPath q y = some (.arr xs) →
      xs[iN]? = some x → cond x = true →
      ∀ kk ∈ ks, pdisj p (q ++ [.idx iN, .key kk]) = true) :
    getPath p d = getPath p y := by
  obtain ⟨v, w, hget, hfv, hfr, hdw, hyv⟩ := mutAt_ok q _ y d h
  cases v with
  | arr xs =>
    simp only [CAOCouchbaseClusterFile.mapServers] at hfv
    cases hmm : exMapM g xs with
    | error e => rw [hmm] at hfv; simp [Except.map] at hfv
    | ok xs' =>
      rw [hmm] at hfv
      simp only [Except.map, Except.ok.injEq] at hfv
      obtain ⟨hlen, hpt⟩ := exMapM_ok g xs xs' hmm
      by_cases hall : ∃ (iN : Nat) (x : Yaml), xs[iN]? = some x ∧ cond x = true
      · obtain ⟨i0, x0, hx0, hc0⟩ := hall
        cases hdq : pdisj p q with
        | true => exact hfr p hdq
        | false =>
          rcases prefix_or_of_pdisj_eq_false p q hdq with hpre | hpre
          · exfalso
            have hfalse : pdisj p (q ++ [.idx i0, .key kk0]) = false :=
              pdisj_eq_false_of_prefix _ _ (hpre.trans (List.prefix_append q _))
            rw [hp xs i0 x0 hget hx0 hc0 kk0 hks] at hfalse
            exact Bool.true_eq_false.mp hfalse
          · obtain ⟨r, rfl⟩ := hpre
            cases r with
            | nil =>
              exfalso
              have hfalse : pdisj (q ++ []) (q ++ [.idx i0, .key kk0]) = false := by
                rw [List.append_nil]
                exact pdisj_eq_false_of_prefix _ _ (List.prefix_append q _)
              rw [hp xs i0 x0 hget hx0 hc0 kk0 hks] at hfalse
              exact Bool.true_eq_false.mp hfalse
            | cons step r' =>
              rw [hdw (step :: r'), hyv (step :: r'), ← hfv]
              cases step with
              | key k'' => simp [getPath]
              | idx iN =>
                cases hxi : xs[iN]? with
                | none =>
                  have hxi' : xs'[iN]? = none :=
                    List.getElem?_eq_none (hlen ▸ List.getElem?_eq_none_iff.mp hxi)
                  simp [getPath, hxi, hxi']
                | some x =>
                  obtain ⟨x', hx', hgx⟩ := hpt iN x hxi
                  simp only [getPath, hxi, hx', Option.bind]
                  cases hcx : cond x with
                  | false => rw [(hg x x' hgx).1 hcx]
                  | true =>
                    have hstep : ∀ kk ∈ ks, pdisj r' [.key kk] = true := by
                      intro kk hkk
                      have hpp := hp xs iN x hget hxi hcx kk hkk
                      rw [show q ++ .idx iN :: r' = q ++ (.idx iN :: r') from rfl,
                        show (q ++ [.idx iN, .key kk] : Path) =
                          q ++ (.idx iN :: [.key kk]) from rfl,
                        pdisj_append_same q (.idx iN :: r') (.idx iN :: [.key kk])] at hpp
                      simpa [pdisj] using hpp
                    rcases (hg x x' hgx).2 with hw | ⟨kvs, kvs', hx2, hr2, hagree⟩
                    · rw [hw]
                    · subst hx2
                      subst hr2
                      cases r' with
                      | nil =>
                        exfalso
                        have hbad := hstep kk0 hks
                        simp [pdisj] at hbad
                      | cons step2 r'' =>
                        cases step2 with
                        | key kx =>
                          have hne : ∀ kk ∈ ks, kk ≠ kx := by
                            intro kk hkk heq
                            have hbad := hstep kk hkk
                            subst heq
                            simp [pdisj, pdisj_nil_right] at hbad
                          simp [getPath, hagree kx hne]
                        | idx nx => simp [getPath]
      · push_neg at hall
        have hxs : xs' = xs := by
          refine List.ext_getElem? ?_
          intro iN
          cases hxi : xs[iN]? with
          | none =>
            exact List.getElem?_eq_none (hlen ▸ List.getElem?_eq_none_iff.mp hxi)
          | some x =>
            obtain ⟨x', hx', hgx⟩ := hpt iN x hxi
            rw [hx', (hg x x' hgx).1 (Bool.eq_false_iff.mpr (hall iN x hxi))]
        have hid : d = y := by
          refine mutAt_id q _ y d h ?_
          intro v0 r0 hgv hfr0
          rw [hget] at hgv
          cases hgv
          simp only [CAOCouchbaseClusterFile.mapServers, hmm, Except.map,
            Except.ok.injEq] at hfr0
          rw [← hfr0, hxs]
        rw [hid]
  | s a => simp [CAOCouchbaseClusterFile.mapServers] at hfv
  | i a => simp [CAOCouchbaseClusterFile.mapServers] at hfv
  | b a => simp [CAOCouchbaseClusterFile.mapServers] at hfv
  | null => simp [CAOCouchbaseClusterFile.mapServers] at hfv
  | obj kvs => simp [CAOCouchbaseClusterFile.mapServers] at hfv

/-- Frame for the falsy-tag pop branch of `set_backup`/`set_exporter`. -/
theorem pop_branch_frame (sub : String) (kvs skvs : List (String × Yaml)) (p : Path)
    (hsp : lookupKV "spec" kvs = some (.obj skvs))
    (hp : pdisj p [.key "spec", .key sub] = true) :
    getPath p (.obj (setEntry "spec" (.obj (eraseKey sub skvs)) kvs)) =
    getPath p (.obj kvs) := by
  cases p with
  | nil => simp [pdisj] at hp
  | cons a p' =>
    cases a with
    | idx n => simp [getPath]
    | key k1 =>
      by_cases hk1 : k1 = "spec"
      · subst hk1
        have hp' : pdisj p' [.key sub] = true := by simpa [pdisj] using hp
        simp only [getPath, lookupKV_setEntry_self, hsp, Option.bind]
        cases p' with
        | nil => simp [pdisj] at hp'
        | cons b p'' =>
          cases b with
          | idx n => simp [getPath]
          | key k2 =>
            have hk2 : k2 ≠ sub := by
              intro he
              subst he
              simp [pdisj, pdisj_nil_right] at hp'
            simp [getPath, lookupKV_eraseKey_ne _ _ _ hk2]
      · simp [getPath, lookupKV_setEntry_ne _ _ _ _ hk1]

theorem dictUpdate_objAgree (ps : List (String × Yaml)) (x r : Yaml)
    (h : dictUpdate ps x = .ok r) : objAgreeOutside (ps.map Prod.fst) x r := by
  cases x with
  | obj kvs =>
    simp only [dictUpdate, Except.ok.injEq] at h
    refine Or.inr ⟨kvs, ps.foldl (fun acc kv => setEntry kv.1 kv.2 acc) kvs, rfl, h.symm, ?_⟩
    intro k' hk'
    refine lookup_foldSet_not_mem ps k' kvs ?_
    intro kv hkv
    exact hk' kv.1 (List.mem_map_of_mem _ hkv)
  | s a => simp [dictUpdate] at h
  | i a => simp [dictUpdate] at h
  | b a => simp [dictUpdate] at h
  | null => simp [dictUpdate] at h
  | arr xs => simp [dictUpdate] at h

theorem setKeyE_objAgree (k : String) (v : Yaml) (x r : Yaml)
    (h : setKeyE k v x = .ok r) : objAgreeOutside [k] x r := by
  cases x with
  | obj kvs =>
    simp only [setKeyE, Except.ok.injEq] at h
    refine Or.inr ⟨kvs, setEntry k v kvs, rfl, h.symm, ?_⟩
    intro k' hk'
    exact lookupKV_setEntry_ne _ _ _ _ (Ne.symm (hk' k (by simp)))
  | s a => simp [setKeyE] at h
  | i a => simp [setKeyE] at h
  | b a => simp [setKeyE] at h
  | null => simp [setKeyE] at h
  | arr xs => simp [setKeyE] at h

theorem autoscale_body_objAgree (x r : Yaml)
    (h : CAOCouchbaseClusterFile.autoscale_body x = .ok r) :
    objAgreeOutside ["autoscaleEnabled"] x r := by
  simp only [CAOCouchbaseClusterFile.autoscale_body] at h
  cases hk : getKey "name" x with
  | error e => simp only [hk] at h; cases h
  | ok name =>
    simp only [hk] at h
    by_cases hpe : pyEq name x = true
    · rw [if_pos hpe] at h
      have := dictUpdate_objAgree [("autoscaleEnabled", .b true)] x r h
      simpa using this
    · rw [if_neg hpe] at h
      cases h
      exact Or.inl rfl

/-- Whether the `set_memory_settings` loop rewrites a given server group. -/
def groupTuned (tune : List String) (g : Yaml) : Bool :=
  match getKey "services" g with
  | .ok (.arr names) => names.any (fun y => tune.any (fun tn => pyEq y (.s tn)))
  | _ => false

theorem mem_update_group_spec (tune : List String) (kernel : Nat) (x r : Yaml)
    (h : CAOCouchbaseClusterFile.mem_update_group tune kernel x = .ok r) :
    (groupTuned tune x = false → r = x) ∧ objAgreeOutside ["resources"] x r := by
  simp only [CAOCouchbaseClusterFile.mem_update_group] at h
  cases hk : getKey "services" x with
  | error e => simp only [hk] at h; cases h
  | ok svs =>
    cases svs with
    | arr names =>
      simp only [hk] at h
      by_cases hc : names.any (fun y => tune.any (fun tn => pyEq y (.s tn))) = true ∧
          kernel ≠ 0
      · rw [if_pos hc] at h
        constructor
        · intro hgt
          simp only [groupTuned, hk] at hgt
          rw [hgt] at hc
          exact absurd hc.1 (by simp)
        · have := dictUpdate_objAgree
            [("resources", .obj [("limits",
              .obj [("memory", .s (toString kernel ++ "Mi"))])])] x r h
          simpa using this
      · rw [if_neg hc] at h
        cases h
        exact ⟨fun _ => rfl, Or.inl rfl⟩
    | s a => simp only [hk] at h; cases h
    | i a => simp only [hk] at h; cases h
    | b a => simp only [hk] at h; cases h
    | null => simp only [hk] at h; cases h
    | obj kvs => simp only [hk] at h; cases h

/-- One setter invocation on a `CAOCouchbaseClusterFile`, with its arguments. -/
inductive SCall where
  | serverSpec (server_tag : String) (server_count : Int)
  | backup (backup_tag : String)
  | exporter (exporter_tag : String) (refresh_rate : Int)
  | memoryQuota
  | indexSettings
  | services
  | autoCompaction
  | autoFailover
  | cpuSettings
  | memorySettings
  | autoscaling (sg : String)
  | cngVersion (cng_tag : String)

/-- Dispatch one setter call to its definition; for the gated
`set_cng_version`, an out-of-bounds version returns `None` and leaves the
document unchanged. -/
def applyCall (ctx : Ctx) : SCall → Yaml → Except PyErr Yaml
  | .serverSpec tag n => CAOCouchbaseClusterFile.set_server_spec tag n
  | .backup tag => CAOCouchbaseClusterFile.set_backup tag
  | .exporter tag rate => CAOCouchbaseClusterFile.set_exporter tag rate
  | .memoryQuota => CAOCouchbaseClusterFile.set_memory_quota ctx.test_config
  | .indexSettings => CAOCouchbaseClusterFile.set_index_settings ctx.cluster_spec ctx.test_config
  | .services => CAOCouchbaseClusterFile.set_services ctx.cluster_spec ctx.test_config
  | .autoCompaction => CAOCouchbaseClusterFile.configure_auto_compaction ctx.test_config
  | .autoFailover => CAOCouchbaseClusterFile.set_auto_failover ctx.test_config
  | .cpuSettings => CAOCouchbaseClusterFile.set_cpu_settings ctx.test_config
  | .memorySettings => CAOCouchbaseClusterFile.set_memory_settings ctx.test_config
  | .autoscaling sg => CAOCouchbaseClusterFile.configure_autoscaling sg
  | .cngVersion tag => fun doc =>
    match (CAOCouchbaseClusterFile.set_cng_version ctx.version tag doc).ret with
    | some r => r
    | none => .ok doc

/-- The per-entry field paths a `spec.servers` loop may write. -/
def serversIdxPaths (t : Yaml) (k : String) : List Path :=
  match getPath [.key "spec", .key "servers"] t with
  | some (.arr xs) => (List.range xs.length).map
      (fun iN => [.key "spec", .key "servers", .idx iN, .key k])
  | _ => []

/-- The per-entry field paths `set_memory_settings` writes: `resources` on
exactly the groups whose services intersect the tuning set. -/
def memTouchedPaths (tune : List String) (t : Yaml) : List Path :=
  match getPath [.key "spec", .key "servers"] t with
  | some (.arr xs) => (List.range xs.length).filterMap (fun iN =>
      match xs[iN]? with
      | some x => if groupTuned tune x then
          some [.key "spec", .key "servers", .idx iN, .key "resources"] else none
      | none => none)
  | _ => []

/-- The nested field paths a setter call touches, determined by its arguments,
the configuration and the pre-state document. -/
def touched (ctx : Ctx) : SCall → Yaml → List Path
  | .serverSpec _ _, _ =>
    [[.key "spec", .key "image"], [.key "spec", .key "servers", .idx 0, .key "size"]]
  | .backup tag, _ =>
    if tag ≠ "" then [[.key "spec", .key "backup", .key "image"]]
    else [[.key "spec", .key "backup"]]
  | .exporter tag _, _ =>
    if tag ≠ "" then
      [[.key "spec", .key "monitoring", .key "prometheus", .key "image"],
       [.key "spec", .key "monitoring", .key "prometheus", .key "refreshRate"]]
    else [[.key "spec", .key "monitoring"]]
  | .memoryQuota, _ =>
    [[.key "spec", .key "cluster", .key "dataServiceMemoryQuota"],
     [.key "spec", .key "cluster", .key "indexServiceMemoryQuota"]] ++
    (if ctx.test_config.cluster.fts_index_mem_quota ≠ 0 then
      [[.key "spec", .key "cluster", .key "searchServiceMemoryQuota"]] else []) ++
    (if ctx.test_config.cluster.analytics_mem_quota ≠ 0 then
      [[.key "spec", .key "cluster", .key "analyticsServiceMemoryQuota"]] else []) ++
    (if ctx.test_config.cluster.eventing_mem_quota ≠ 0 then
      [[.key "spec", .key "cluster", .key "eventingServiceMemoryQuota"]] else [])
  | .indexSettings, _ =>
    if ¬ctx.cluster_spec.index_nodes.isEmpty ∧ ¬ctx.test_config.gsi_settings.isEmpty then
      [[.key "spec", .key "cluster", .key "indexStorageSetting"]]
    else []
  | .services, _ =>
    [[.key "spec", .key "servers"], [.key "spec", .key "volumeClaimTemplates"]]
  | .autoCompaction, _ => [[.key "spec", .key "cluster", .key "autoCompaction"]]
  | .autoFailover, _ =>
    [[.key "spec", .key "cluster", .key "autoFailoverMaxCount"],
     [.key "spec", .key "cluster", .key "autoFailoverServerGroup"],
     [.key "spec", .key "cluster", .key "autoFailoverOnDataDiskIssues"],
     [.key "spec", .key "cluster", .key "autoFailoverOnDataDiskIssuesTimePeriod"],
     [.key "spec", .key "cluster", .key "autoFailoverTimeout"]]
  | .cpuSettings, t => serversIdxPaths t "resources"
  | .memorySettings, t =>
    if ctx.test_config.cluster.kernel_mem_limit = 0 then []
    else memTouchedPaths
      (ctx.test_config.cluster.kernel_mem_limit_services.map
        CAOCouchbaseClusterFile.canonService) t
  | .autoscaling _, t => serversIdxPaths t "autoscaleEnabled"
  | .cngVersion _, _ =>
    if CAOCouchbaseClusterFile.vle (2, 6, 0) (ctx.version.getD (0, 0, 0)) then
      [[.key "spec", .key "networking", .key "cloudNativeGateway"]]
    else []

/-- A path is untouched by one call when it is disjoint from every touched
path (neither a prefix of the other). -/
def untouchedB (ctx : Ctx) (c : SCall) (t : Yaml) (p : Path) : Bool :=
  (touched ctx c t).all (fun q => pdisj p q)

/-- Apply a sequence of setter calls left to right, stopping at the first
raised error. -/
def applySeq (ctx : Ctx) : List SCall → Yaml → Except PyErr Yaml
  | [], t => .ok t
  | c :: cs, t =>
    match applyCall ctx c t with
    | .error e => .error e
    | .ok t' => applySeq ctx cs t'

/-- A path is untouched by a whole sequence when each call leaves it
untouched at the intermediate state where that call runs. -/
def untouchedSeq (ctx : Ctx) : List SCall → Yaml → Path → Bool
  | [], _, _ => true
  | c :: cs, t, p =>
    untouchedB ctx c t p &&
    (match applyCall ctx c t with
     | .ok t' => untouchedSeq ctx cs t' p
     | .error _ => true)

/-- Frame for a conditional `spec.cluster.update` step against an arbitrary
untouched path. -/
theorem mutUpd_if_frame (c : Prop) [Decidable c] (q : Path) (ps : List (String × Yaml))
    (kk0 : String) (hkk0 : kk0 ∈ ps.map Prod.fst) (y z : Yaml) (p : Path)
    (h : (if c then mutAt q (dictUpdate ps) y else .ok y) = .ok z)
    (hp : c → ∀ kk ∈ ps.map Prod.fst, pdisj p (q ++ [.key kk]) = true) :
    getPath p z = getPath p y := by
  by_cases hc : c
  · rw [if_pos hc] at h
    exact mutAgree_frame q _ _ kk0 hkk0 y z p h
      (fun x r hr => dictUpdate_objAgree ps x r hr) (hp hc)
  · rw [if_neg hc] at h
    cases h
    rfl

theorem set_server_spec_frame (tag : String) (n : Int) (t d : Yaml) (p : Path)
    (h : CAOCouchbaseClusterFile.set_server_spec tag n t = .ok d)
    (hp1 : pdisj p [.key "spec", .key "image"] = true)
    (hp2 : pdisj p [.key "spec", .key "servers", .idx 0, .key "size"] = true) :
    getPath p d = getPath p t := by
  simp only [CAOCouchbaseClusterFile.set_server_spec] at h
  cases h1 : mutAt [.key "spec"] (setKeyE "image" (.s tag)) t with
  | error e => simp only [h1] at h; cases h
  | ok d1 =>
    simp only [h1] at h
    have f1 : getPath p d1 = getPath p t :=
      mutAgree_frame [.key "spec"] _ ["image"] "image" (by simp) t d1 p h1
        (fun x r hr => setKeyE_objAgree _ _ _ _ hr)
        (by intro kk hkk
            rcases List.mem_singleton.mp hkk with rfl
            simpa using hp1)
    have f2 : getPath p d = getPath p d1 :=
      mutAgree_frame [.key "spec", .key "servers", .idx 0] _ ["size"] "size" (by simp)
        d1 d p h
        (fun x r hr => setKeyE_objAgree _ _ _ _ hr)
        (by intro kk hkk
            rcases List.mem_singleton.mp hkk with rfl
            simpa using hp2)
    exact f2.trans f1

theorem set_backup_frame (tag : String) (t d : Yaml) (p : Path)
    (h : CAOCouchbaseClusterFile.set_backup tag t = .ok d)
    (hp1 : tag ≠ "" → pdisj p [.key "spec", .key "backup", .key "image"] = true)
    (hp2 : tag = "" → pdisj p [.key "spec", .key "backup"] = true) :
    getPath p d = getPath p t := by
  by_cases htag : tag = ""
  · cases t with
    | obj kvs =>
      simp only [CAOCouchbaseClusterFile.set_backup] at h
      rw [if_neg (fun hc => hc htag)] at h
      cases hsp : lookupKV "spec" kvs with
      | some v =>
        rw [hsp] at h
        cases v with
        | obj skvs =>
          cases hb : lookupKV "backup" skvs with
          | some bv =>
            simp only [popKey, hb, Except.map, Except.ok.injEq] at h
            subst h
            exact pop_branch_frame "backup" kvs skvs p hsp (hp2 htag)
          | none => simp [popKey, hb, Except.map] at h
        | s a => simp [popKey, Except.map] at h
        | i a => simp [popKey, Except.map] at h
        | b a => simp [popKey, Except.map] at h
        | null => simp [popKey, Except.map] at h
        | arr xs => simp [popKey, Except.map] at h
      | none =>
        rw [hsp] at h
        simp [popKey, Yaml.empty, lookupKV, Except.map] at h
    | s a => simp [CAOCouchbaseClusterFile.set_backup, mutAt, htag] at h
    | i a => simp [CAOCouchbaseClusterFile.set_backup, mutAt, htag] at h
    | b a => simp [CAOCouchbaseClusterFile.set_backup, mutAt, htag] at h
    | null => simp [CAOCouchbaseClusterFile.set_backup, mutAt, htag] at h
    | arr xs => simp [CAOCouchbaseClusterFile.set_backup, mutAt, htag] at h
  · simp only [CAOCouchbaseClusterFile.set_backup] at h
    rw [if_pos htag] at h
    exact mutAgree_frame [.key "spec", .key "backup"] _ ["image"] "image" (by simp)
      t d p h (fun x r hr => setKeyE_objAgree _ _ _ _ hr)
      (by intro kk hkk
          rcases List.mem_singleton.mp hkk with rfl
          simpa using hp1 htag)

theorem set_exporter_frame (tag : String) (rate : Int) (t d : Yaml) (p : Path)
    (h : CAOCouchbaseClusterFile.set_exporter tag rate t = .ok d)
    (hp1 : tag ≠ "" →
      pdisj p [.key "spec", .key "monitoring", .key "prometheus", .key "image"] = true)
    (hp2 : tag ≠ "" →
      pdisj p [.key "spec", .key "monitoring", .key "prometheus", .key "refreshRate"] = true)
    (hp3 : tag = "" → pdisj p [.key "spec", .key "monitoring"] = true) :
    getPath p d = getPath p t := by
  by_cases htag : tag = ""
  · cases t with
    | obj kvs =>
      simp only [CAOCouchbaseClusterFile.set_exporter] at h
      rw [if_neg (fun hc => hc htag)] at h
      cases hsp : lookupKV "spec" kvs with
      | some v =>
        rw [hsp] at h
        cases v with
        | obj skvs =>
          cases hb : lookupKV "monitoring" skvs with
          | some bv =>
            simp only [popKey, hb, Except.map, Except.ok.injEq] at h
            subst h
            exact pop_branch_frame "monitoring" kvs skvs p hsp (hp3 htag)
          | none => simp [popKey, hb, Except.map] at h
        | s a => simp [popKey, Except.map] at h
        | i a => simp [popKey, Except.map] at h
        | b a => simp [popKey, Except.map] at h
        | null => simp [popKey, Except.map] at h
        | arr xs => simp [popKey, Except.map] at h
      | none =>
        rw [hsp] at h
        simp [popKey, Yaml.empty, lookupKV, Except.map] at h
    | s a => simp [CAOCouchbaseClusterFile.set_exporter, mutAt, htag] at h
    | i a => simp [CAOCouchbaseClusterFile.set_exporter, mutAt, htag] at h
    | b a => simp [CAOCouchbaseClusterFile.set_exporter, mutAt, htag] at h
    | null => simp [CAOCouchbaseClusterFile.set_exporter, mutAt, htag] at h
    | arr xs => simp [CAOCouchbaseClusterFile.set_exporter, mutAt, htag] at h
  · simp only [CAOCouchbaseClusterFile.set_exporter] at h
    rw [if_pos htag] at h
    refine mutAgree_frame [.key "spec", .key "monitoring", .key "prometheus"] _
      ["image", "refreshRate"] "image" (by simp) t d p h
      (fun x r hr => by simpa using dictUpdate_objAgree _ x r hr) ?_
    intro kk hkk
    cases hkk with
    | head => simpa using hp1 htag
    | tail _ htl =>
      cases htl with
      | head => simpa using hp2 htag
      | tail _ h0 => cases h0

theorem set_memory_quota_frame (tc : TestConfig) (t d : Yaml) (p : Path)
    (h : CAOCouchbaseClusterFile.set_memory_quota tc t = .ok d)
    (hp1 : pdisj p [.key "spec", .key "cluster", .key "dataServiceMemoryQuota"] = true)
    (hp2 : pdisj p [.key "spec", .key "cluster", .key "indexServiceMemoryQuota"] = true)
    (hp3 : tc.cluster.fts_index_mem_quota ≠ 0 →
      pdisj p [.key "spec", .key "cluster", .key "searchServiceMemoryQuota"] = true)
    (hp4 : tc.cluster.analytics_mem_quota ≠ 0 →
      pdisj p [.key "spec", .key "cluster", .key "analyticsServiceMemoryQuota"] = true)
    (hp5 : tc.cluster.eventing_mem_quota ≠ 0 →
      pdisj p [.key "spec", .key "cluster", .key "eventingServiceMemoryQuota"] = true) :
    getPath p d = getPath p t := by
  simp only [CAOCouchbaseClusterFile.set_memory_quota] at h
  cases h1 : mutAt [.key "spec", .key "cluster"] (dictUpdate
      [("dataServiceMemoryQuota", .s (toString tc.cluster.mem_quota ++ "Mi")),
       ("indexServiceMemoryQuota", .s (toString tc.cluster.index_mem_quota ++ "Mi"))]) t with
  | error e => simp only [h1] at h; cases h
  | ok d1 =>
  simp only [h1] at h
  have f1 : getPath p d1 = getPath p t := by
    refine mutAgree_frame [.key "spec", .key "cluster"] _ _ "dataServiceMemoryQuota"
      (by simp) t d1 p h1 (fun x r hr => dictUpdate_objAgree _ x r hr) ?_
    intro kk hkk
    simp only [List.map_cons, List.map_nil] at hkk
    cases hkk with
    | head => simpa using hp1
    | tail _ htl =>
      cases htl with
      | head => simpa using hp2
      | tail _ h0 => cases h0
  cases h2 : (if tc.cluster.fts_index_mem_quota ≠ 0 then
      mutAt [.key "spec", .key "cluster"] (dictUpdate
        [("searchServiceMemoryQuota",
          .s (toString tc.cluster.fts_index_mem_quota ++ "Mi"))]) d1
    else .ok d1) with
  | error e => simp only [h2] at h; cases h
  | ok d2 =>
  simp only [h2] at h
  have f2 : getPath p d2 = getPath p d1 := by
    refine mutUpd_if_frame _ [.key "spec", .key "cluster"] _ "searchServiceMemoryQuota"
      (by simp) d1 d2 p h2 ?_
    intro hc kk hkk
    simp only [List.map_cons, List.map_nil] at hkk
    rcases List.mem_singleton.mp hkk with rfl
    simpa using hp3 hc
  cases h3 : (if tc.cluster.analytics_mem_quota ≠ 0 then
      mutAt [.key "spec", .key "cluster"] (dictUpdate
        [("analyticsServiceMemoryQuota",
          .s (toString tc.cluster.analytics_mem_quota ++ "Mi"))]) d2
    else .ok d2) with
  | error e => simp only [h3] at h; cases h
  | ok d3 =>
  simp only [h3] at h
  have f3 : getPath p d3 = getPath p d2 := by
    refine mutUpd_if_frame _ [.key "spec", .key "cluster"] _ "analyticsServiceMemoryQuota"
      (by simp) d2 d3 p h3 ?_
    intro hc kk hkk
    simp only [List.map_cons, List.map_nil] at hkk
    rcases List.mem_singleton.mp hkk with rfl
    simpa using hp4 hc
  have f4 : getPath p d = getPath p d3 := by
    refine mutUpd_if_frame _ [.key "spec", .key "cluster"] _ "eventingServiceMemoryQuota"
      (by simp) d3 d p h ?_
    intro hc kk hkk
    simp only [List.map_cons, List.map_nil] at hkk
    rcases List.mem_singleton.mp hkk with rfl
    simpa using hp5 hc
  exact f4.trans (f3.trans (f2.trans f1))

theorem set_index_settings_frame (cs : ClusterSpec) (tc : TestConfig) (t d : Yaml) (p : Path)
    (h : CAOCouchbaseClusterFile.set_index_settings cs tc t = .ok d)
    (hp : (¬cs.index_nodes.isEmpty ∧ ¬tc.gsi_settings.isEmpty) →
      pdisj p [.key "spec", .key "cluster", .key "indexStorageSetting"] = true) :
    getPath p d = getPath p t := by
  simp only [CAOCouchbaseClusterFile.set_index_settings] at h
  by_cases hc : ¬cs.index_nodes.isEmpty ∧ ¬tc.gsi_settings.isEmpty
  · rw [if_pos hc] at h
    refine mutAgree_frame [.key "spec", .key "cluster"] _ ["indexStorageSetting"]
      "indexStorageSetting" (by simp) t d p h ?_ ?_
    · intro x r hr
      cases ha : alookup "indexer.settings.storage_mode" tc.gsi_settings with
      | some v =>
        simp only [ha] at hr
        simpa using dictUpdate_objAgree [("indexStorageSetting", .s v)] x r hr
      | none => simp only [ha] at hr; cases hr
    · intro kk hkk
      rcases List.mem_singleton.mp hkk with rfl
      simpa using hp hc
  · rw [if_neg hc] at h
    cases h
    rfl

theorem set_services_frame (cs : ClusterSpec) (tc : TestConfig) (t d : Yaml) (p : Path)
    (h : CAOCouchbaseClusterFile.set_services cs tc t = .ok d)
    (hp1 : pdisj p [.key "spec", .key "servers"] = true)
    (hp2 : pdisj p [.key "spec", .key "volumeClaimTemplates"] = true) :
    getPath p d = getPath p t := by
  simp only [CAOCouchbaseClusterFile.set_services] at h
  cases hdefs : CAOCouchbaseClusterFile.exPairMapM
      (CAOCouchbaseClusterFile.server_group_defs tc
        (if cs.istio_enabled then "true" else "false"))
      (CAOCouchbaseClusterFile.server_types cs.roles) with
  | error e => simp only [hdefs] at h; cases h
  | ok defs =>
  simp only [hdefs] at h
  cases h1 : mutAt [.key "spec"]
      (setKeyE "servers" (.arr (defs.map Prod.fst))) t with
  | error e => simp only [h1] at h; cases h
  | ok d1 =>
  simp only [h1] at h
  have f1 : getPath p d1 = getPath p t :=
    mutAgree_frame [.key "spec"] _ ["servers"] "servers" (by simp) t d1 p h1
      (fun x r hr => setKeyE_objAgree _ _ _ _ hr)
      (by intro kk hkk
          rcases List.mem_singleton.mp hkk with rfl
          simpa using hp1)
  have f2 : getPath p d = getPath p d1 :=
    mutAgree_frame [.key "spec"] _ ["volumeClaimTemplates"] "volumeClaimTemplates"
      (by simp) d1 d p h
      (fun x r hr => setKeyE_objAgree _ _ _ _ hr)
      (by intro kk hkk
          rcases List.mem_singleton.mp hkk with rfl
          simpa using hp2)
  exact f2.trans f1

theorem configure_auto_compaction_frame (tc : TestConfig) (t d : Yaml) (p : Path)
    (h : CAOCouchbaseClusterFile.configure_auto_compaction tc t = .ok d)
    (hp : pdisj p [.key "spec", .key "cluster", .key "autoCompaction"] = true) :
    getPath p d = getPath p t := by
  simp only [CAOCouchbaseClusterFile.configure_auto_compaction] at h
  cases hdb : pyInt tc.compaction.db_percentage with
  | error e => simp only [hdb] at h; cases h
  | ok db_percent =>
  simp only [hdb] at h
  cases hvw : pyInt tc.compaction.view_percentage with
  | error e => simp only [hvw] at h; cases h
  | ok views_percent =>
  simp only [hvw] at h
  refine mutAgree_frame [.key "spec", .key "cluster"] _ ["autoCompaction"]
    "autoCompaction" (by simp) t d p h
    (fun x r hr => by simpa using dictUpdate_objAgree _ x r hr) ?_
  intro kk hkk
  rcases List.mem_singleton.mp hkk with rfl
  simpa using hp

theorem set_auto_failover_frame (tc : TestConfig) (t d : Yaml) (p : Path)
    (h : CAOCouchbaseClusterFile.set_auto_failover tc t = .ok d)
    (hp1 : pdisj p [.key "spec", .key "cluster", .key "autoFailoverMaxCount"] = true)
    (hp2 : pdisj p [.key "spec", .key "cluster", .key "autoFailoverServerGroup"] = true)
    (hp3 : pdisj p [.key "spec", .key "cluster", .key "autoFailoverOnDataDiskIssues"] = true)
    (hp4 : pdisj p
      [.key "spec", .key "cluster", .key "autoFailoverOnDataDiskIssuesTimePeriod"] = true)
    (hp5 : pdisj p [.key "spec", .key "cluster", .key "autoFailoverTimeout"] = true) :
    getPath p d = getPath p t := by
  simp only [CAOCouchbaseClusterFile.set_auto_failover] at h
  refine mutAgree_frame [.key "spec", .key "cluster"] _
    ["autoFailoverMaxCount", "autoFailoverServerGroup", "autoFailoverOnDataDiskIssues",
     "autoFailoverOnDataDiskIssuesTimePeriod", "autoFailoverTimeout"]
    "autoFailoverMaxCount" (by simp) t d p h ?_ ?_
  · intro x r hr
    cases hlast : tc.bucket.failover_timeouts.getLast? with
    | none => simp only [hlast] at hr; cases hr
    | some ft =>
      simp only [hlast] at hr
      simpa using dictUpdate_objAgree _ x r hr
  · intro kk hkk
    cases hkk with
    | head => simpa using hp1
    | tail _ h2 =>
      cases h2 with
      | head => simpa using hp2
      | tail _ h3 =>
        cases h3 with
        | head => simpa using hp3
        | tail _ h4 =>
          cases h4 with
          | head => simpa using hp4
          | tail _ h5 =>
            cases h5 with
            | head => simpa using hp5
            | tail _ h0 => cases h0

theorem set_cpu_settings_frame (tc : TestConfig) (t d : Yaml) (p : Path)
    (h : CAOCouchbaseClusterFile.set_cpu_settings tc t = .ok d)
    (hp : ∀ q ∈ serversIdxPaths t "resources", pdisj p q = true) :
    getPath p d = getPath p t := by
  simp only [CAOCouchbaseClusterFile.set_cpu_settings] at h
  refine mapServers_frame [.key "spec", .key "servers"] _ ["resources"] "resources"
    (by simp) (fun _ => true) t d p h ?_ ?_
  · intro x r hr
    refine ⟨fun hfalse => absurd hfalse (by simp), ?_⟩
    simpa using dictUpdate_objAgree _ x r hr
  · intro xs iN x hget hxi _ kk hkk
    rcases List.mem_singleton.mp hkk with rfl
    obtain ⟨hlt, -⟩ := List.getElem?_eq_some.mp hxi
    have hmem : ([.key "spec", .key "servers", .idx iN, .key "resources"] : Path) ∈
        serversIdxPaths t "resources" := by
      simp only [serversIdxPaths, hget]
      exact List.mem_map_of_mem _ (List.mem_range.mpr hlt)
    simpa using hp _ hmem

theorem set_memory_settings_frame (tc : TestConfig) (t d : Yaml) (p : Path)
    (h : CAOCouchbaseClusterFile.set_memory_settings tc t = .ok d)
    (hp : tc.cluster.kernel_mem_limit ≠ 0 →
      ∀ q ∈ memTouchedPaths
        (tc.cluster.kernel_mem_limit_services.map CAOCouchbaseClusterFile.canonService) t,
        pdisj p q = true) :
    getPath p d = getPath p t := by
  simp only [CAOCouchbaseClusterFile.set_memory_settings] at h
  by_cases hk : tc.cluster.kernel_mem_limit = 0
  · rw [if_pos hk] at h
    cases h
    rfl
  · rw [if_neg hk] at h
    refine mapServers_frame [.key "spec", .key "servers"] _ ["resources"] "resources"
      (by simp)
      (groupTuned (tc.cluster.kernel_mem_limit_services.map
        CAOCouchbaseClusterFile.canonService)) t d p h ?_ ?_
    · intro x r hr
      exact mem_update_group_spec _ _ x r hr
    · intro xs iN x hget hxi hcx kk hkk
      rcases List.mem_singleton.mp hkk with rfl
      obtain ⟨hlt, -⟩ := List.getElem?_eq_some.mp hxi
      have hmem : ([.key "spec", .key "servers", .idx iN, .key "resources"] : Path) ∈
          memTouchedPaths (tc.cluster.kernel_mem_limit_services.map
            CAOCouchbaseClusterFile.canonService) t := by
        simp only [memTouchedPaths, hget]
        refine List.mem_filterMap.mpr ⟨iN, List.mem_range.mpr hlt, ?_⟩
        simp [hxi, hcx]
      simpa using hp hk _ hmem

theorem configure_autoscaling_frame (sg : String) (t d : Yaml) (p : Path)
    (h : CAOCouchbaseClusterFile.configure_autoscaling sg t = .ok d)
    (hp : ∀ q ∈ serversIdxPaths t "autoscaleEnabled", pdisj p q = true) :
    getPath p d = getPath p t := by
  rw [CAOCouchbaseClusterFile.configure_autoscaling] at h
  refine mapServers_frame [.key "spec", .key "servers"] _ ["autoscaleEnabled"]
    "autoscaleEnabled" (by simp) (fun _ => true) t d p h ?_ ?_
  · intro x r hr
    exact ⟨fun hfalse => absurd hfalse (by simp), autoscale_body_objAgree x r hr⟩
  · intro xs iN x hget hxi _ kk hkk
    rcases List.mem_singleton.mp hkk with rfl
    obtain ⟨hlt, -⟩ := List.getElem?_eq_some.mp hxi
    have hmem : ([.key "spec", .key "servers", .idx iN, .key "autoscaleEnabled"] : Path) ∈
        serversIdxPaths t "autoscaleEnabled" := by
      simp only [serversIdxPaths, hget]
      exact List.mem_map_of_mem _ (List.mem_range.mpr hlt)
    simpa using hp _ hmem

/-- Frame for one setter call: whenever the call succeeds, every path
disjoint from all its touched paths reads the same value afterwards. -/
theorem applyCall_frame (ctx : Ctx) (c : SCall) (t d : Yaml) (p : Path)
    (h : applyCall ctx c t = .ok d) (hp : untouchedB ctx c t p = true) :
    getPath p d = getPath p t := by
  cases c with
  | serverSpec tag n =>
    simp only [untouchedB, touched, List.all_cons, List.all_nil, Bool.and_true,
      Bool.and_eq_true] at hp
    exact set_server_spec_frame tag n t d p h hp.1 hp.2
  | backup tag =>
    refine set_backup_frame tag t d p h ?_ ?_
    · intro htag
      simp only [untouchedB, touched] at hp
      rw [if_pos htag] at hp
      simpa using hp
    · intro htag
      simp only [untouchedB, touched] at hp
      rw [if_neg (fun hc : tag ≠ "" => hc htag)] at hp
      simpa using hp
  | exporter tag rate =>
    refine set_exporter_frame tag rate t d p h ?_ ?_ ?_
    · intro htag
      simp only [untouchedB, touched] at hp
      rw [if_pos htag] at hp
      simp only [List.all_cons, List.all_nil, Bool.and_true, Bool.and_eq_true] at hp
      exact hp.1
    · intro htag
      simp only [untouchedB, touched] at hp
      rw [if_pos htag] at hp
      simp only [List.all_cons, List.all_nil, Bool.and_true, Bool.and_eq_true] at hp
      exact hp.2
    · intro htag
      simp only [untouchedB, touched] at hp
      rw [if_neg (fun hc : tag ≠ "" => hc htag)] at hp
      simpa using hp
  | memoryQuota =>
    simp only [untouchedB] at hp
    have hall := List.all_eq_true.mp hp
    refine set_memory_quota_frame ctx.test_config t d p h ?_ ?_ ?_ ?_ ?_
    · exact hall _ (by simp [touched])
    · exact hall _ (by simp [touched])
    · intro hc
      exact hall _ (by simp [touched, hc])
    · intro hc
      exact hall _ (by simp [touched, hc])
    · intro hc
      exact hall _ (by simp [touched, hc])
  | indexSettings =>
    refine set_index_settings_frame ctx.cluster_spec ctx.test_config t d p h ?_
    intro hc
    simp only [untouchedB] at hp
    exact List.all_eq_true.mp hp _ (by simp [touched, hc])
  | services =>
    simp only [untouchedB, touched, List.all_cons, List.all_nil, Bool.and_true,
      Bool.and_eq_true] at hp
    exact set_services_frame ctx.cluster_spec ctx.test_config t d p h hp.1 hp.2
  | autoCompaction =>
    simp only [untouchedB, touched, List.all_cons, List.all_nil, Bool.and_true] at hp
    exact configure_auto_compaction_frame ctx.test_config t d p h hp
  | autoFailover =>
    simp only [untouchedB, touched, List.all_cons, List.all_nil, Bool.and_true,
      Bool.and_eq_true] at hp
    exact set_auto_failover_frame ctx.test_config t d p h hp.1 hp.2.1 hp.2.2.1
      hp.2.2.2.1 hp.2.2.2.2
  | cpuSettings =>
    refine set_cpu_settings_frame ctx.test_config t d p h ?_
    intro q hq
    simp only [untouchedB] at hp
    exact List.all_eq_true.mp hp _ (by simpa [touched] using hq)
  | memorySettings =>
    refine set_memory_settings_frame ctx.test_config t d p h ?_
    intro hk q hq
    simp only [untouchedB] at hp
    refine List.all_eq_true.mp hp _ ?_
    simp only [touched, if_neg hk]
    exact hq
  | autoscaling sg =>
    refine configure_autoscaling_frame sg t d p h ?_
    intro q hq
    simp only [untouchedB] at hp
    exact List.all_eq_true.mp hp _ (by simpa [touched] using hq)
  | cngVersion tag =>
    simp only [applyCall, CAOCouchbaseClusterFile.set_cng_version,
      CAOCouchbaseClusterFile.supported_for, Bool.and_true] at h
    cases hgate : CAOCouchbaseClusterFile.vle (2, 6, 0) (ctx.version.getD (0, 0, 0)) with
    | false =>
      rw [hgate] at h
      simp at h
      rw [← h]
    | true =>
      rw [hgate] at h
      simp at h
      refine mutAgree_frame [.key "spec", .key "networking"] _ ["cloudNativeGateway"]
        "cloudNativeGateway" (by simp) t d p h
        (fun x r hr => by simpa using dictUpdate_objAgree _ x r hr) ?_
      intro kk hkk
      rcases List.mem_singleton.mp hkk with rfl
      simp only [untouchedB] at hp
      have hmem : ([.key "spec", .key "networking", .key "cloudNativeGateway"] : Path) ∈
          touched ctx (SCall.cngVersion tag) t := by
        simp only [touched]
        rw [hgate]
        simp
      have := List.all_eq_true.mp hp _ hmem
      simpa using this

/-- Frame over a sequence: each call leaves sequence-untouched paths alone. -/
theorem applySeq_frame (ctx : Ctx) (cs : List SCall) (t d : Yaml) (p : Path)
    (h : applySeq ctx cs t = .ok d) (hp : untouchedSeq ctx cs t p = true) :
    getPath p d = getPath p t := by
  induction cs generalizing t with
  | nil =>
    simp only [applySeq, Except.ok.injEq] at h
    rw [← h]
  | cons c cs ih =>
    cases h1 : applyCall ctx c t with
    | error e => simp only [applySeq, h1] at h; cases h
    | ok t1 =>
      simp only [applySeq, h1] at h
      simp only [untouchedSeq, h1, Bool.and_eq_true] at hp
      exact (ih t1 h hp.2).trans (applyCall_frame ctx c t t1 p h1 hp.1)

/-- C1: for every setter sequence applied to the loaded template document
(the head of the in-memory YAML document list), every nested field path left
untouched by all invoked setters reads the same value in the resulting
document as in the template at load time — only touched fields can differ —
and `write` stores exactly that mutated document set at the destination. -/
theorem setter_sequence_frame (ctx : Ctx) (cs : List SCall) (fs : FS)
    (src dst : String) (rest : List Yaml) (ini : Option Yaml) (t d : Yaml)
    (h : applySeq ctx cs t = .ok d) :
    (∀ p, untouchedSeq ctx cs t p = true → getPath p d = getPath p t) ∧
    (∃ fs', write fs ⟨src, dst, .YAML, d :: rest, d, ini⟩ = .ok fs' ∧
      fs' dst = some (.yamlDocs (d :: rest))) := by
  constructor
  · intro p hp
    exact applySeq_frame ctx cs t d p h hp
  · refine ⟨fun q => if q = dst then some (.yamlDocs (d :: rest)) else fs q, ?_, ?_⟩
    · simp [write]
    · simp

/-- A concrete context for the C1 witness. -/
def frameCtx : Ctx :=
  ⟨⟨⟨256, 512, 0, 0, 0, 8, 0, []⟩, ⟨false, [30], 120⟩, ⟨"30", "30", false⟩, [],
    fun _ => []⟩, ⟨[("node1", "kv")], false, []⟩, some (2, 6, 0)⟩

/-- A concrete template document for the C1 witness. -/
def frameDoc : Yaml := .obj
  [("metadata", .obj [("name", .s "test-cluster")]),
   ("spec", .obj
     [("image", .s "old-image"),
      ("servers", .arr [.obj [("name", .s "kv"), ("size", .i 1)]]),
      ("cluster", .obj [])])]

/-- Witness for C1: after `set_server_spec` and `set_memory_quota`,
`metadata.name` and the first server group's name still hold their template
values, while a touched field (`spec.image`) holds the new value. -/
theorem setter_sequence_frame_witness :
    applySeq frameCtx [.serverSpec "new-image" 5, .memoryQuota] frameDoc = .ok
      (.obj
        [("metadata", .obj [("name", .s "test-cluster")]),
         ("spec", .obj
           [("image", .s "new-image"),
            ("servers", .arr [.obj [("name", .s "kv"), ("size", .i 5)]]),
            ("cluster", .obj
              [("dataServiceMemoryQuota", .s "256Mi"),
               ("indexServiceMemoryQuota", .s "512Mi")])])]) ∧
    untouchedSeq frameCtx [.serverSpec "new-image" 5, .memoryQuota] frameDoc
      [.key "metadata", .key "name"] = true ∧
    getPath [.key "metadata", .key "name"]
      (.obj
        [("metadata", .obj [("name", .s "test-cluster")]),
         ("spec", .obj
           [("image", .s "new-image"),
            ("servers", .arr [.obj [("name", .s "kv"), ("size", .i 5)]]),
            ("cluster", .obj
              [("dataServiceMemoryQuota", .s "256Mi"),
               ("indexServiceMemoryQuota", .s "512Mi")])])]) =
      getPath [.key "metadata", .key "name"] frameDoc := by
  refine ⟨by rfl, by rfl, ?_⟩
  exact (setter_sequence_frame frameCtx [.serverSpec "new-image" 5, .memoryQuota]
    (fun _ => none) "t.yaml" "t.yaml" [] none frameDoc _ (by rfl)).1
    [.key "metadata", .key "name"] (by rfl)
